import Mathlib

/-!
# News aggregator: post store, comment service and gateway

A shallow embedding of the Go services of the repository.

* `News_aggregator/pkg/storage/storage.go` : the post store.  The PostgreSQL
  table `posts` created by `resetTable` is a list of rows in heap (insertion)
  order together with the last value of the `SERIAL` sequence.  A statement is
  a function on that state.  Everything the server or the driver can report
  that is not decided by the table contents (lost connection, cancelled
  context, a value the column type refuses) is an explicit fault flag supplied
  by the caller of the model.
* The Go standard library functions `time.Parse` and `Time.Format` are not
  part of the repository; they are the two fields of `GoTime`, a parameter of
  every function that calls them.
-/

namespace NewsAggregator

/-! ## Data model -/

/-- The record `rss.Post` as the storage package uses it: the fields `ID`,
`Title`, `Content`, `PubDate` (a textual date) and `Link`. -/
structure Post where
  ID : Int
  Title : String
  Content : String
  PubDate : String
  Link : String
deriving DecidableEq, Repr

/-- One row of the table `posts`:
`id SERIAL PRIMARY KEY, title TEXT NOT NULL, content TEXT NOT NULL,
pub_time BIGINT DEFAULT 0, link TEXT NOT NULL UNIQUE`. -/
structure Row where
  id : Int
  title : String
  content : String
  pub_time : Int
  link : String
deriving DecidableEq, Repr

/-- The database behind a `Storage` handle: the rows of `posts` in heap order
and the last value handed out by the sequence of the `id` column. -/
structure Storage where
  rows : List Row
  seq : Int
deriving DecidableEq, Repr

/-- The part of Go's `time` package the store calls.  `Parse layout value` is
`time.Parse(layout, value)` followed by `.Unix()`, `none` when `time.Parse`
returns an error; `Format sec layout` is `time.Unix(sec, 0).Format(layout)`. -/
structure GoTime where
  Parse : String → String → Option Int
  Format : Int → String → String

/-- The constant `time.RFC1123Z`. -/
def RFC1123Z : String := "Mon, 02 Jan 2006 15:04:05 -0700"

/-- The constant `time.RFC1123`. -/
def RFC1123 : String := "Mon, 02 Jan 2006 15:04:05 MST"

/-- The slice `timeFormats` of `SavePost` and `SavePostTx`. -/
def timeFormats : List String :=
  [RFC1123Z, RFC1123, "Mon, 2 Jan 2006 15:04:05 -0700", "Mon, 2 Jan 2006 15:04:05 MST"]

/-- What the server reports for a failed statement. -/
inductive DbError where
  | uniqueViolation
  | fault
deriving DecidableEq, Repr

/-- The errors the storage package builds with `fmt.Errorf`, one constructor
per message. -/
inductive StoreError where
  | parseTime
  | insertPost (e : DbError)
  | beginTx
  | savePost (e : StoreError)
  | commitTx
  | getPosts
  | getPost
  | countPosts
deriving DecidableEq, Repr

/-- The behaviour of the connection during one call of `SavePosts`: whether
`Begin` fails, whether the statement number `k` of the call fails for a reason
outside the table, whether `Commit` fails. -/
structure Driver where
  beginFault : Bool
  stmtFault : Nat → Bool
  commitFault : Bool

/-- A connection on which nothing fails. -/
def Driver.healthy : Driver := ⟨false, fun _ => false, false⟩

/-- The state `resetTable` leaves: the table dropped and created anew. -/
def resetTable : Storage := ⟨[], 0⟩

/-! ## Write path -/

/-- The loop of `SavePost` / `SavePostTx` over the layouts: every layout is
tried in order and the loop breaks at the first one that parses.  `none` is a
non-nil `err` after the loop. -/
def parseLoop (tm : GoTime) (pubDate : String) : List String → Option Int
  | [] => none
  | format :: rest =>
    match tm.Parse format pubDate with
    | some t => some t
    | none => parseLoop tm pubDate rest

/-- The publication time `SavePost` and `SavePostTx` compute (`unixTime`). -/
def parsePubDate (tm : GoTime) (pubDate : String) : Option Int :=
  parseLoop tm pubDate timeFormats

/-- The statement
`INSERT INTO posts (title, content, pub_time, link) VALUES ($1, $2, $3, $4) RETURNING id`.
The default of `id` takes the next value of the sequence, which stays consumed
when the row is refused; the row is refused when its `id` or its `link` is
already in the table. -/
def Storage.insert (fault : Bool) (db : Storage) (title content : String) (unixTime : Int)
    (link : String) : Except DbError Int × Storage :=
  if fault then (.error .fault, db)
  else
    let id := db.seq + 1
    if db.rows.any (fun r => r.id == id) || db.rows.any (fun r => r.link == link) then
      (.error .uniqueViolation, { rows := db.rows, seq := id })
    else
      (.ok id, { rows := db.rows ++ [⟨id, title, content, unixTime, link⟩], seq := id })

/-- The method `Storage.SavePost`: the returned `error` and the database after
the call. -/
def Storage.SavePost (tm : GoTime) (fault : Bool) (db : Storage) (post : Post) :
    Option StoreError × Storage :=
  match parsePubDate tm post.PubDate with
  | none => (some .parseTime, db)
  | some unixTime =>
    match db.insert fault post.Title post.Content unixTime post.Link with
    | (.error e, db') => (some (.insertPost e), db')
    | (.ok _, db') => (none, db')

/-- The method `Storage.SavePostTx`, on the working state of the transaction. -/
def Storage.SavePostTx (tm : GoTime) (fault : Bool) (tx : Storage) (post : Post) :
    Option StoreError × Storage :=
  match parsePubDate tm post.PubDate with
  | none => (some .parseTime, tx)
  | some unixTime =>
    match tx.insert fault post.Title post.Content unixTime post.Link with
    | (.error e, tx') => (some (.insertPost e), tx')
    | (.ok _, tx') => (none, tx')

/-- The `for _, post := range posts` loop of `SavePosts`; `k` counts the
statements already sent. -/
def Storage.savePostsLoop (tm : GoTime) (stmtFault : Nat → Bool) :
    Nat → Storage → List Post → Option StoreError × Storage
  | _, tx, [] => (none, tx)
  | k, tx, post :: rest =>
    match Storage.SavePostTx tm (stmtFault k) tx post with
    | (some e, tx') => (some (.savePost e), tx')
    | (none, tx') => Storage.savePostsLoop tm stmtFault (k + 1) tx' rest

/-- What `tx.Rollback()` leaves: the rows from before the transaction; values
taken from the sequence are not given back. -/
def Storage.rollback (db tx : Storage) : Storage := { rows := db.rows, seq := tx.seq }

/-- The method `Storage.SavePosts`: `Begin`, the loop, `Commit`, with the
deferred `Rollback` on every path that returns before a successful commit. -/
def Storage.SavePosts (tm : GoTime) (drv : Driver) (db : Storage) (posts : List Post) :
    Option StoreError × Storage :=
  if drv.beginFault then (some .beginTx, db)
  else
    match Storage.savePostsLoop tm drv.stmtFault 0 db posts with
    | (some e, tx) => (some e, db.rollback tx)
    | (none, tx) =>
      if drv.commitFault then (some .commitTx, db.rollback tx)
      else (none, tx)

/-- A time library that knows a few dates: it returns what Go returns for
them and refuses everything else.  Dates with a two-digit day are read by
`time.RFC1123Z`; a one-digit day is read by the third layout of `timeFormats`
only. -/
def sampleTime : GoTime where
  Parse := fun layout value =>
    if layout = RFC1123Z then
      if value = "Mon, 02 Jan 2006 15:04:05 -0700" then some 1136239445
      else if value = "Tue, 03 Jan 2006 15:04:05 -0700" then some 1136325845
      else if value = "Wed, 04 Jan 2006 15:04:05 -0700" then some 1136412245
      else none
    else if layout = "Mon, 2 Jan 2006 15:04:05 -0700" then
      if value = "Mon, 2 Jan 2006 15:04:05 -0700" then some 1136239445
      else if value = "Tue, 3 Jan 2006 15:04:05 -0700" then some 1136325845
      else none
    else none
  Format := fun sec _ =>
    if sec = 1136239445 then "Mon, 02 Jan 2006 22:04:05 +0000"
    else if sec = 1136325845 then "Tue, 03 Jan 2006 22:04:05 +0000"
    else if sec = 1136412245 then "Wed, 04 Jan 2006 22:04:05 +0000"
    else ""

/-- A feed item with the link `"a"`; its date has a one-digit day. -/
def postA1 : Post := ⟨0, "first", "c1", "Mon, 2 Jan 2006 15:04:05 -0700", "a"⟩

/-- The second item with the link `"a"`. -/
def postA2 : Post := ⟨0, "second", "c2", "Tue, 3 Jan 2006 15:04:05 -0700", "a"⟩

/-- An item with the link `"b"`. -/
def postB : Post := ⟨0, "other", "c3", "Wed, 04 Jan 2006 15:04:05 -0700", "b"⟩

/-- An item whose date no layout reads. -/
def postBad : Post := ⟨0, "undated", "c4", "yesterday", "c"⟩

/-! ## Read path -/

/-- The order `ORDER BY pub_time DESC` asks for: `a` may stand before `b`. -/
def Row.newerEq (a b : Row) : Prop := b.pub_time ≤ a.pub_time

instance Row.newerEq.decidable : DecidableRel Row.newerEq :=
  fun a b => inferInstanceAs (Decidable (b.pub_time ≤ a.pub_time))

/-- The clause `ORDER BY pub_time DESC` on a row list.  Rows with equal
`pub_time` keep their heap order here; the server promises no order among
them, and no statement below depends on the choice. -/
def orderByPubTimeDesc (rows : List Row) : List Row :=
  rows.insertionSort Row.newerEq

/-- The body of the `rows.Next()` loops: `rows.Scan` into a `rss.Post` and the
conversion of `pub_time` back to text. -/
def scanPost (tm : GoTime) (r : Row) : Post :=
  { ID := r.id, Title := r.title, Content := r.content,
    PubDate := tm.Format r.pub_time RFC1123Z, Link := r.link }

/-- The rows
`SELECT ... FROM posts ORDER BY pub_time DESC LIMIT n` yields for `0 ≤ n`. -/
def Storage.selectLastN (db : Storage) (n : Int) : List Row :=
  (orderByPubTimeDesc db.rows).take n.toNat

/-- The method `Storage.GetLastNPosts`: the posts and the `error`.  The query
fails on a fault and on a negative `LIMIT`, which the server refuses. -/
def Storage.GetLastNPosts (tm : GoTime) (fault : Bool) (db : Storage) (n : Int) :
    List Post × Option StoreError :=
  if fault || n < 0 then ([], some .getPosts)
  else ((db.selectLastN n).map (scanPost tm), none)

/-- Whether a value fits the 32 bits of a column of type `INT` or `SERIAL`. -/
def fitsInt4 (x : Int) : Bool :=
  decide (-2147483648 ≤ x) && decide (x ≤ 2147483647)

/-- The method `Storage.GetPostByID`: the `*rss.Post` (`none` is `nil`) and the
`error`.  `sql.ErrNoRows` is the empty result of the query.  The argument of
`WHERE id = $1` takes the type of the column `id`: the server refuses a value
that does not fit 32 bits, and the query fails as it does on a fault. -/
def Storage.GetPostByID (tm : GoTime) (fault : Bool) (db : Storage) (id : Int) :
    Option Post × Option StoreError :=
  if fault || !fitsInt4 id then (none, some .getPost)
  else
    match db.rows.find? (fun r => r.id == id) with
    | none => (none, none)
    | some r => (some (scanPost tm r), none)

/-- Whether some suffix of the text satisfies `f` (the text itself included). -/
def anySuffix (f : List Char → Bool) : List Char → Bool
  | [] => f []
  | c :: t => f (c :: t) || anySuffix f t

/-- The operator `LIKE` of PostgreSQL, pattern first: `%` stands for any run
of characters, `_` for any one character, a backslash makes the next pattern
character literal, every other character stands for itself.  A pattern that
ends in an unescaped backslash is refused by the server; it matches nothing
here. -/
def likeMatch : List Char → List Char → Bool
  | [], t => t.isEmpty
  | c :: p, t =>
    if c = '%' then anySuffix (likeMatch p) t
    else if c = '_' then
      match t with
      | [] => false
      | _ :: t' => likeMatch p t'
    else if c = '\\' then
      match p with
      | [] => false
      | e :: p' =>
        match t with
        | [] => false
        | x :: t' => x == e && likeMatch p' t'
    else
      match t with
      | [] => false
      | x :: t' => x == c && likeMatch p t'

/-- The operator `ILIKE`: `LIKE` after both sides are folded to lower case.
The folding `lower` belongs to the locale of the database. -/
def ilike (lower : Char → Char) (text pattern : String) : Bool :=
  likeMatch (pattern.toList.map lower) (text.toList.map lower)

/-- The condition `title ILIKE $1` with the argument `"%"+query+"%"` that
`SearchPostsByTitle` passes to both of its statements. -/
def titleMatches (lower : Char → Char) (query : String) (r : Row) : Bool :=
  ilike lower r.title ("%" ++ query ++ "%")

/-- The method `Storage.SearchPostsByTitle`: posts, total and `error`.  The
count statement runs first; the page statement fails on a fault and on a
negative `LIMIT` or `OFFSET`, which the server refuses. -/
def Storage.SearchPostsByTitle (tm : GoTime) (lower : Char → Char)
    (countFault selectFault : Bool) (db : Storage) (query : String) (limit offset : Int) :
    List Post × Int × Option StoreError :=
  if countFault then ([], 0, some .countPosts)
  else
    let totalCount : Int := ((db.rows.filter (titleMatches lower query)).length : Nat)
    if selectFault || limit < 0 || offset < 0 then ([], 0, some .getPosts)
    else
      ((((orderByPubTimeDesc (db.rows.filter (titleMatches lower query))).drop
          offset.toNat).take limit.toNat).map (scanPost tm), totalCount, none)

/-- Go's `strconv.Atoi` on a 64-bit platform: an optional sign, then one or
more decimal digits, and a value that fits `int`; `none` is a non-nil error. -/
def Atoi (s : String) : Option Int :=
  let digits : List Char :=
    match s.toList with
    | '-' :: r => r
    | '+' :: r => r
    | cs => cs
  let neg : Bool :=
    match s.toList with
    | '-' :: _ => true
    | _ => false
  if digits.isEmpty || !digits.all Char.isDigit then none
  else
    let n : Nat := digits.foldl (fun a c => 10 * a + (c.toNat - 48)) 0
    let v : Int := if neg then -(n : Int) else (n : Int)
    if v < -9223372036854775808 ∨ 9223372036854775807 < v then none else some v

/-- What a handler of the news service has sent when it returns. -/
inductive Reply where
  | text (status : Nat) (msg : String)
  | post (status : Nat) (p : Post)
deriving DecidableEq, Repr

/-- The status code of a reply. -/
def Reply.status : Reply → Nat
  | .text s _ => s
  | .post s _ => s

/-- The handler `API.getNewsDetails` of the news service; `idStr` is
`r.URL.Query().Get("id")`, the empty string when the parameter is missing. -/
def API.getNewsDetails (tm : GoTime) (fault : Bool) (db : Storage) (idStr : String) : Reply :=
  if idStr = "" then .text 400 "Missing 'id' parameter"
  else
    match Atoi idStr with
    | none => .text 400 "Invalid 'id' parameter format: must be a number"
    | some id =>
      match db.GetPostByID tm fault id with
      | (_, some _) => .text 500 "Error retrieving post"
      | (none, none) => .text 404 "Post not found"
      | (some post, none) => .post 200 post

/-- An item published at the same second as `postB`, with its own link. -/
def postB2 : Post := ⟨0, "twin", "c5", "Wed, 04 Jan 2006 15:04:05 -0700", "d"⟩

/-- Whether the list `q` occurs in `t` as a run of consecutive elements. -/
def occursIn (q t : List Char) : Bool :=
  anySuffix (fun s => q.isPrefixOf s) t

/-- A pattern character that is none of `%`, `_` and the backslash. -/
def plainChar (c : Char) : Prop := c ≠ '%' ∧ c ≠ '_' ∧ c ≠ '\\'

/-- The predicate of the specification for a search: the title contains the
query as a case-insensitive substring. -/
def containsIgnoreCase (lower : Char → Char) (query title : String) : Bool :=
  occursIn (query.toList.map lower) (title.toList.map lower)

/-- The unique constraints of `posts` refuse a row with this link: the next
value of the sequence is taken as `id` already, or the link is stored. -/
def Storage.Conflict (db : Storage) (link : String) : Prop :=
  (∃ r ∈ db.rows, r.id = db.seq + 1) ∨ link ∈ db.rows.map (fun r => r.link)

/-- The schema invariants of `posts`: `link` is unique, `id` is unique, and
every `id` was handed out by the sequence. -/
def Storage.WF (db : Storage) : Prop :=
  (db.rows.map (fun r => r.link)).Nodup ∧ (db.rows.map (fun r => r.id)).Nodup ∧
    ∀ r ∈ db.rows, r.id ≤ db.seq

/-- The row `r` is what an insert of the post `p` stores. -/
def Inserted (tm : GoTime) (p : Post) (r : Row) : Prop :=
  r.title = p.Title ∧ r.content = p.Content ∧ r.link = p.Link ∧
    parsePubDate tm p.PubDate = some r.pub_time

/-- No link of the batch is stored already and no link occurs twice in it. -/
def FreshLinks (db : Storage) (posts : List Post) : Prop :=
  (posts.map (fun p => p.Link)).Nodup ∧
    ∀ p ∈ posts, p.Link ∉ db.rows.map (fun r => r.link)

/-- The states of the database that calls of `SavePost` and `SavePosts` reach
from the freshly created table. -/
inductive Reachable (tm : GoTime) : Storage → Prop where
  | reset : Reachable tm resetTable
  | savePost (fault : Bool) (db : Storage) (post : Post) :
      Reachable tm db → Reachable tm (db.SavePost tm fault post).2
  | savePosts (drv : Driver) (db : Storage) (posts : List Post) :
      Reachable tm db → Reachable tm (db.SavePosts tm drv posts).2

end NewsAggregator

/-! # Comment service (`CommentsService`) -/

namespace CommentsService

/-- The struct `Comment` of `models.go`; a nil `ParentID` is `none`. -/
structure Comment where
  ID : Int
  NewsID : Int
  ParentID : Option Int
  Content : String
deriving DecidableEq, Repr

/-- One row of the table `comments`:
`id SERIAL PRIMARY KEY, news_id INT NOT NULL, parent_id INT DEFAULT NULL,
content TEXT NOT NULL`. -/
structure CommentRow where
  id : Int
  news_id : Int
  parent_id : Option Int
  content : String
deriving DecidableEq, Repr

/-- The database behind the `*sql.DB` of the comment service: the rows of
`comments` in heap order and the last value of the sequence of `id`. -/
structure DB where
  rows : List CommentRow
  seq : Int
deriving DecidableEq, Repr

/-- The request `checkCensorship` builds: method, address, headers, and the
text whose JSON object `{"text": text}` is the body. -/
structure CensorRequest where
  method : String
  url : String
  header : List (String × String)
  text : String
deriving DecidableEq, Repr

/-- What `client.Do` hands back from the moderation service. -/
structure CensorResponse where
  status : Nat
  body : String
deriving DecidableEq, Repr

/-- The moderation service as the comment service sees it through
`client.Do`: `none` is a transport error. -/
abbrev CensorClient := CensorRequest → Option CensorResponse

/-- Whether the server accepts the arguments of the `INSERT` of `SaveComment`:
`news_id` and a non-NULL `parent_id` fit the 32 bits of their `INT` columns,
and `content` holds no zero character, which a `TEXT` column cannot store. -/
def Comment.storable (c : Comment) : Bool :=
  NewsAggregator.fitsInt4 c.NewsID &&
    (match c.ParentID with
      | none => true
      | some p => NewsAggregator.fitsInt4 p) &&
    !c.Content.toList.contains (Char.ofNat 0)

/-- The function `SaveComment`: the returned id and `error`, and the database
after the call.  The statement fails on a fault, when the server refuses an
argument (the sequence is not touched then), when the sequence of the `SERIAL`
column has handed out its last value 2147483647, and when the next value of
the sequence is an `id` of the table already. -/
def SaveComment (fault : Bool) (db : DB) (comment : Comment) : (Int × Bool) × DB :=
  if fault || !comment.storable then ((0, true), db)
  else
    let id := db.seq + 1
    if 2147483647 < id then ((0, true), db)
    else if db.rows.any (fun r => r.id == id) then ((0, true), { rows := db.rows, seq := id })
    else
      ((id, false),
        { rows := db.rows ++ [⟨id, comment.NewsID, comment.ParentID, comment.Content⟩],
          seq := id })

/-- The scan of one row in `GetCommentsByNewsID`; a NULL `parent_id` leaves
`ParentID` nil. -/
def scanComment (r : CommentRow) : Comment :=
  { ID := r.id, NewsID := r.news_id, ParentID := r.parent_id, Content := r.content }

/-- The order in which the server hands over the rows of a statement that has
no `ORDER BY`: `arrange` is the order in which the scan visits the rows of the
table, some rearrangement of them that the statement does not fix. -/
structure ScanOrder where
  arrange : List CommentRow → List CommentRow
  perm : ∀ rows, (arrange rows).Perm rows

/-- A scan that visits the rows in heap order, the oldest row first. -/
def ScanOrder.heap : ScanOrder := ⟨fun rows => rows, fun rows => List.Perm.refl rows⟩

/-- A scan that starts at the second row of the heap and wraps around to the
first, as a scan that joins another scan under way does. -/
def ScanOrder.fromSecond : ScanOrder :=
  ⟨fun rows => rows.rotate 1, fun rows => List.rotate_perm rows 1⟩

/-- The function `GetCommentsByNewsID`: the comments and whether the `error`
is non-nil.  The statement `SELECT ... WHERE news_id = $1` has no `ORDER BY`:
the rows come in the order of the scan.  The argument takes the type of the
column `news_id`; the server refuses a value that does not fit 32 bits. -/
def GetCommentsByNewsID (order : ScanOrder) (fault : Bool) (db : DB) (newsID : Int) :
    List Comment × Bool :=
  if fault || !NewsAggregator.fitsInt4 newsID then ([], true)
  else
    (((order.arrange db.rows).filter (fun r => r.news_id == newsID)).map scanComment, false)

/-- The request of `API.checkCensorship` for a comment text. -/
def censorshipRequest (content : String) : CensorRequest :=
  { method := "POST", url := "http://localhost:8083/censor",
    header := [("Content-Type", "application/json")], text := content }

/-- The method `API.checkCensorship`.  `json.Marshal` of a string map and
`http.NewRequest` with a constant address do not fail; what is left is the
transport error of `client.Do` and the test of the status code. -/
def API.checkCensorship (client : CensorClient) (content : String) : Bool :=
  match client (censorshipRequest content) with
  | none => false
  | some resp => if resp.status ≠ 200 then false else true

/-- What a handler of the comment service has sent when it returns. -/
inductive Reply where
  | text (status : Nat) (msg : String)
  | comment (status : Nat) (c : Comment)
  | comments (status : Nat) (cs : List Comment)
deriving DecidableEq, Repr

/-- The status code of a reply. -/
def Reply.status : Reply → Nat
  | .text s _ => s
  | .comment s _ => s
  | .comments s _ => s

/-- What one run of `API.AddCommentHandler` did: the reply, the database after
it, the requests sent to the moderation service and the comments handed to
`SaveComment`, each in order. -/
structure AddOutcome where
  reply : Reply
  db : DB
  censorCalls : List CensorRequest
  saveCalls : List Comment
deriving DecidableEq, Repr

/-- The method `API.AddCommentHandler`.  `body` is the result of decoding the
request body into a `Comment`, `none` when the decoder returns an error. -/
def API.AddCommentHandler (client : CensorClient) (saveFault : Bool) (db : DB)
    (body : Option Comment) : AddOutcome :=
  match body with
  | none => ⟨.text 400 "Invalid request body", db, [], []⟩
  | some comment =>
    if !API.checkCensorship client comment.Content then
      ⟨.text 400 "Comment rejected by censorship service", db,
        [censorshipRequest comment.Content], []⟩
    else
      match SaveComment saveFault db comment with
      | ((_, true), db') =>
        ⟨.text 500 "Failed to save comment", db', [censorshipRequest comment.Content], [comment]⟩
      | ((id, false), db') =>
        ⟨.comment 200 { comment with ID := id }, db', [censorshipRequest comment.Content],
          [comment]⟩

/-- A moderation service that approves nothing: every text gets a 400. -/
def rejectAll : CensorClient := fun _ => some ⟨400, "Text contains forbidden words"⟩

/-- A moderation service that cannot be reached. -/
def noService : CensorClient := fun _ => none

/-- A moderation service that approves every text. -/
def approveAll : CensorClient := fun _ => some ⟨200, ""⟩

/-- The comment `{newsId: 5, parentId: null, content: "hello"}`. -/
def hello : Comment := ⟨0, 5, none, "hello"⟩

/-- A reply to the first comment of the news item 5. -/
def helloReply : Comment := ⟨0, 5, some 1, "welcome"⟩

/-- A comment on the news item 3000000000. -/
def helloFar : Comment := ⟨0, 3000000000, none, "hello"⟩

end CommentsService

/-! # Gateway (`APIGateway`) -/

namespace APIGateway

/-- A header map: the pairs of key and value, one pair per key. -/
abbrev Header := List (String × String)

/-- The method `Header.Get`: the value of a key, `""` when it is absent. -/
def Header.get (h : Header) (key : String) : String :=
  match h.find? (fun kv => kv.1 == key) with
  | some kv => kv.2
  | none => ""

/-- The method `Header.Set`: the value of a key is replaced. -/
def Header.set (h : Header) (key value : String) : Header :=
  h.filter (fun kv => kv.1 != key) ++ [(key, value)]

/-- An outbound request as `forwardRequest` builds it; a nil body is `none`. -/
structure Request where
  method : String
  url : String
  header : Header
  body : Option String
deriving DecidableEq, Repr

/-- A downstream response as `client.Do` returns it.  `body` is what
`io.ReadAll(resp.Body)` yields, `none` when reading fails. -/
structure Response where
  status : Nat
  header : Header
  body : Option String
deriving DecidableEq, Repr

/-- The downstream services as the gateway sees them through `client.Do`:
`none` is a transport error. -/
abbrev Client := Request → Option Response

/-- The `http.ResponseWriter` of one inbound request: the header map, the
status line and headers that went out with the first `WriteHeader`, and the
bytes of the body that `Write` accepted.  Status codes are those
`WriteHeader` takes for the status of the response, 101 and 200 to 999. -/
structure ResponseWriter where
  header : Header
  sent : Option (Nat × Header)
  body : String
deriving DecidableEq, Repr

/-- The method `WriteHeader`: the first call sends the status and the headers
as they are at that moment; a later call is ignored. -/
def ResponseWriter.WriteHeader (w : ResponseWriter) (code : Nat) : ResponseWriter :=
  match w.sent with
  | some _ => w
  | none => { w with sent := some (code, w.header) }

/-- The function `bodyAllowedForStatus` of `net/http`: a response with a
status 1xx, 204 or 304 has no body. -/
def bodyAllowedForStatus (status : Nat) : Bool :=
  if 100 ≤ status ∧ status ≤ 199 then false
  else if status = 204 then false
  else if status = 304 then false
  else true

/-- The method `Write`: a write before any `WriteHeader` sends status 200.
When the status that went out allows no body the bytes are refused
(`http.ErrBodyNotAllowed`, which no handler of the gateway inspects) and the
body stays as it is. -/
def ResponseWriter.Write (w : ResponseWriter) (bytes : String) : ResponseWriter :=
  let w' := w.WriteHeader 200
  match w'.sent with
  | some (code, _) =>
    if bodyAllowedForStatus code then { w' with body := w'.body ++ bytes } else w'
  | none => w'

/-- The body the client receives for an inbound request with the given
method.  In reply to a `HEAD` request the server sends the status line and the
headers and drops every byte the handler writes; for every other method the
client receives the bytes `Write` accepted. -/
def ResponseWriter.clientBody (method : String) (w : ResponseWriter) : String :=
  if method = "HEAD" then "" else w.body

/-- The call `w.Header().Set(key, value)`. -/
def ResponseWriter.setHeader (w : ResponseWriter) (key value : String) : ResponseWriter :=
  { w with header := Header.set w.header key value }

/-- The function `http.Error`: it sets the content type of a plain text reply,
writes the header with the code and prints the message and a newline. -/
def httpError (w : ResponseWriter) (msg : String) (code : Nat) : ResponseWriter :=
  (((w.setHeader "Content-Type" "text/plain; charset=utf-8").setHeader
    "X-Content-Type-Options" "nosniff").WriteHeader code).Write (msg ++ "\n")

/-- The status code the client has received, if any. -/
def ResponseWriter.status (w : ResponseWriter) : Option Nat :=
  w.sent.map (fun s => s.1)

/-- The function `forwardRequest`: the request sent, with the `request_id` of
the context as `X-Request-ID`, and the response or transport error. -/
def forwardRequest (client : Client) (requestID : String) (method url : String)
    (body : Option String) : Request × Option Response :=
  let req : Request :=
    { method := method, url := url, header := Header.set [] "X-Request-ID" requestID,
      body := body }
  (req, client req)

/-- The function `processResponse`: the downstream status and body are
relayed; the request id it computes is only logged. -/
def processResponse (w : ResponseWriter) (resp : Response) : ResponseWriter :=
  match resp.body with
  | none => httpError w "Error reading response from service" 500
  | some body =>
    (((w.setHeader "Content-Type" "application/json").WriteHeader resp.status).Write body)

/-- The address of the details route of the news service. -/
def newsDetailsURL (esc : String → String) (id : String) : String :=
  "http://localhost:8082/news/details?id=" ++ esc id

/-- The address of the comments route of the comment service. -/
def commentsURL (esc : String → String) (id : String) : String :=
  "http://localhost:8081/comments?news_id=" ++ esc id

/-- The handler `getNewsDetails` of the gateway: the writer after the handler
and the outbound requests in the order they were sent.  `esc` is
`url.QueryEscape`; `raw` is the JSON encoding of a `json.RawMessage`, `none`
when the bytes are not a JSON document; `id` is `r.URL.Query().Get("id")`. -/
def getNewsDetails (esc : String → String) (raw : String → Option String) (client : Client)
    (w : ResponseWriter) (requestID : String) (id : String) : ResponseWriter × List Request :=
  if id = "" then (httpError w "Missing 'id' parameter" 400, [])
  else
    match forwardRequest client requestID "GET" (newsDetailsURL esc id) none with
    | (reqA, none) => (httpError w "Error contacting news service" 500, [reqA])
    | (reqA, some newsResp) =>
      if newsResp.status ≠ 200 then
        (processResponse (httpError w "Failed to get news details" newsResp.status) newsResp,
          [reqA])
      else
        match forwardRequest client requestID "GET" (commentsURL esc id) none with
        | (reqB, none) => (httpError w "Error contacting comments service" 500, [reqA, reqB])
        | (reqB, some commentsResp) =>
          if commentsResp.status ≠ 200 then
            (processResponse (httpError w "Failed to get comments" commentsResp.status)
              commentsResp, [reqA, reqB])
          else
            match newsResp.body with
            | none => (httpError w "Error reading news response" 500, [reqA, reqB])
            | some newsBody =>
              match commentsResp.body with
              | none => (httpError w "Error reading comments response" 500, [reqA, reqB])
              | some commentsBody =>
                let w1 := (w.setHeader "Content-Type" "application/json").WriteHeader 200
                match raw newsBody, raw commentsBody with
                | some n, some c =>
                  (w1.Write ("\x7b\"news\":" ++ n ++ ",\"comments\":" ++ c ++ "\x7d\n"),
                    [reqA, reqB])
                | _, _ => (httpError w1 "Error encoding response" 500, [reqA, reqB])

/-- The writer a handler starts with once `requestIDMiddleware` has set the
response header `X-Request-ID`. -/
def freshWriter (requestID : String) : ResponseWriter :=
  { header := Header.set [] "X-Request-ID" requestID, sent := none, body := "" }

/-- The request `getNewsDetails` sends to the news service. -/
def newsRequest (esc : String → String) (requestID id : String) : Request :=
  (forwardRequest (fun _ => none) requestID "GET" (newsDetailsURL esc id) none).1

/-- The request `getNewsDetails` sends to the comment service. -/
def commentsRequest (esc : String → String) (requestID id : String) : Request :=
  (forwardRequest (fun _ => none) requestID "GET" (commentsURL esc id) none).1

/-- A news service that knows no post: every lookup gets a 404. -/
def newsNotFound : Client := fun req =>
  if "http://localhost:8082".toList.isPrefixOf req.url.toList then
    some ⟨404, [("X-Request-ID", Header.get req.header "X-Request-ID")], some "Post not found\n"⟩
  else some ⟨200, [], some "[]"⟩

/-- Downstream services none of which can be reached. -/
def offline : Client := fun _ => none

/-- The local variable `requestID` of `processResponse` and of
`getNewsDetails` after the update from a downstream response: the downstream
`X-Request-ID` when it is not empty.  The handlers use it in log lines. -/
def adoptedRequestID (requestID : String) (resp : Response) : String :=
  if Header.get resp.header "X-Request-ID" ≠ "" then Header.get resp.header "X-Request-ID"
  else requestID

/-- The handler `getLastNPosts` of the gateway; `n` is `r.URL.Query().Get("n")`.
The address is built from `n` as it is, so `http.NewRequestWithContext` inside
`forwardRequest` can refuse it; `urlOK` tells whether it accepts an address.
When it refuses, `forwardRequest` returns the error before any request is
sent. -/
def getLastNPosts (urlOK : String → Bool) (client : Client) (w : ResponseWriter)
    (requestID : String) (n : String) : ResponseWriter × List Request :=
  if n = "" then (httpError w "Missing 'n' parameter" 400, [])
  else
    let apiURL := "http://localhost:8082/news/" ++ n
    if !urlOK apiURL then (httpError w "Error contacting news service" 500, [])
    else
      match forwardRequest client requestID "GET" apiURL none with
      | (req, none) => (httpError w "Error contacting news service" 500, [req])
      | (req, some resp) => (processResponse w resp, [req])

/-- The address `getNews` builds: `url.Values.Encode` writes the keys in
sorted order, each key and value through `url.QueryEscape`. -/
def newsURL (esc : String → String) (s page : String) : String :=
  "http://localhost:8082/news" ++ "?" ++ ("page=" ++ esc page ++ "&s=" ++ esc s)

/-- The handler `getNews` of the gateway; `s` and `page` are the query
parameters, empty when missing. -/
def getNews (esc : String → String) (client : Client) (w : ResponseWriter)
    (requestID : String) (s page : String) : ResponseWriter × List Request :=
  let page := if page = "" then "1" else page
  match forwardRequest client requestID "GET" (newsURL esc s page) none with
  | (req, none) => (httpError w "Error contacting news service" 500, [req])
  | (req, some resp) => (processResponse w resp, [req])

/-- The handler `addComment` of the gateway; `body` is the inbound body that
is handed on as it is. -/
def addComment (client : Client) (w : ResponseWriter) (requestID : String)
    (method body : String) : ResponseWriter × List Request :=
  if method ≠ "POST" then (httpError w "Invalid request method" 405, [])
  else
    match forwardRequest client requestID "POST" "http://localhost:8081/comments"
      (some body) with
    | (req, none) => (httpError w "Error contacting comments service" 500, [req])
    | (req, some resp) => (processResponse w resp, [req])

/-- The handler `getComments` of the gateway; `newsID` is
`r.URL.Query().Get("news_id")`. -/
def getComments (esc : String → String) (client : Client) (w : ResponseWriter)
    (requestID : String) (newsID : String) : ResponseWriter × List Request :=
  if newsID = "" then (httpError w "Missing 'news_id' parameter" 400, [])
  else
    match forwardRequest client requestID "GET" (commentsURL esc newsID) none with
    | (req, none) => (httpError w "Error contacting comments service" 500, [req])
    | (req, some resp) =>
      match resp.body with
      | none => (httpError w "Error reading response from comments service" 500, [req])
      | some body =>
        (((w.setHeader "Content-Type" "application/json").WriteHeader resp.status).Write body,
          [req])

/-- What the `ServeMux` of `main` does with an inbound request: one of the
five patterns with the parameters its handler reads, or a path without a
pattern. -/
inductive Route where
  | news (s page : String)
  | last (n : String)
  | details (id : String)
  | comments (newsID : String)
  | addComment (method body : String)
  | other
deriving DecidableEq, Repr

/-- The library functions and the downstream services a run of the gateway
depends on: `url.QueryEscape`, the encoding of a `json.RawMessage`, the
address check of `http.NewRequestWithContext`, and `client.Do`. -/
structure Env where
  esc : String → String
  raw : String → Option String
  urlOK : String → Bool
  client : Client

/-- The `ServeMux` of `main`: the handler of the pattern, `http.NotFound` for
a path without a pattern. -/
def handle (env : Env) (w : ResponseWriter) (requestID : String) :
    Route → ResponseWriter × List Request
  | .news s page => getNews env.esc env.client w requestID s page
  | .last n => getLastNPosts env.urlOK env.client w requestID n
  | .details id => getNewsDetails env.esc env.raw env.client w requestID id
  | .comments newsID => getComments env.esc env.client w requestID newsID
  | .addComment method body => addComment env.client w requestID method body
  | .other => (httpError w "404 page not found" 404, [])

/-- The identifier `requestIDMiddleware` establishes: the inbound
`X-Request-ID` when it is not empty, otherwise `uuid`, the string
`uuid.New().String()` returns. -/
def establishedID (uuid : String) (inbound : Header) : String :=
  if Header.get inbound "X-Request-ID" = "" then uuid else Header.get inbound "X-Request-ID"

/-- The function `requestIDMiddleware` of the gateway: the identifier goes
into the context and into the response header, then `next` runs. -/
def requestIDMiddleware (uuid : String) (inbound : Header)
    (next : ResponseWriter → String → ResponseWriter × List Request) :
    ResponseWriter × List Request :=
  next (freshWriter (establishedID uuid inbound)) (establishedID uuid inbound)

/-- The handler chain of `main`, `requestIDMiddleware(logRequestMiddleware(mux))`;
`logRequestMiddleware` only records the status for its log line. -/
def serve (env : Env) (uuid : String) (inbound : Header) (route : Route) :
    ResponseWriter × List Request :=
  requestIDMiddleware uuid inbound (fun w requestID => handle env w requestID route)

/-- The `X-Request-ID` header the client receives, if a response was sent. -/
def ResponseWriter.echoedID (w : ResponseWriter) : Option String :=
  w.sent.map (fun s => Header.get s.2 "X-Request-ID")

/-- The writer carries the identifier: it is the `X-Request-ID` of the header
map, and of the headers that went out if a status was sent. -/
def ResponseWriter.Carries (w : ResponseWriter) (requestID : String) : Prop :=
  Header.get w.header "X-Request-ID" = requestID ∧
    ∀ code hdr, w.sent = some (code, hdr) → Header.get hdr "X-Request-ID" = requestID

/-- The outcome of a handler is correlated by the identifier: the response
was sent with it as `X-Request-ID`, and every outbound request carries it. -/
def Correlated (requestID : String) (out : ResponseWriter × List Request) : Prop :=
  out.1.Carries requestID ∧ out.1.sent ≠ none ∧
    ∀ req ∈ out.2, Header.get req.header "X-Request-ID" = requestID

/-- The one request a pass-through handler forwards, when the inbound request
passes the handler's own check and `http.NewRequestWithContext` accepts the
address: for `getNews`, `getLastNPosts`, `getComments` and `addComment`. -/
def passThroughRequest (env : Env) (requestID : String) : Route → Option Request
  | .news s page =>
    some (forwardRequest env.client requestID "GET"
      (newsURL env.esc s (if page = "" then "1" else page)) none).1
  | .last n =>
    if n = "" then none
    else if env.urlOK ("http://localhost:8082/news/" ++ n) then
      some (forwardRequest env.client requestID "GET" ("http://localhost:8082/news/" ++ n) none).1
    else none
  | .comments newsID =>
    if newsID = "" then none
    else some (forwardRequest env.client requestID "GET" (commentsURL env.esc newsID) none).1
  | .addComment method body =>
    if method = "POST" then
      some (forwardRequest env.client requestID "POST" "http://localhost:8081/comments"
        (some body)).1
    else none
  | .details _ => none
  | .other => none

/-- An encoding of `json.RawMessage` that knows three documents and takes
everything else for bytes that are not JSON. -/
def sampleRaw (bytes : String) : Option String :=
  if bytes = "[]" then some "[]"
  else if bytes = "null\n" then some "null"
  else if bytes = "\x7b\"id\":7\x7d\n" then some "\x7b\"id\":7\x7d"
  else none

/-- An address check that refuses the address with the broken escape `%zz`,
which `url.Parse` reports as an invalid URL escape, and accepts the rest. -/
def sampleURLOK (url : String) : Bool :=
  url != "http://localhost:8082/news/%zz"

/-- Downstream services that answer 200: the news service with the document
`newsBody` and an `X-Request-ID` of its own, the comment service with `[]`. -/
def bothOK (newsBody : Option String) : Client := fun req =>
  if "http://localhost:8082".toList.isPrefixOf req.url.toList then
    some ⟨200, [("X-Request-ID", "n-9")], newsBody⟩
  else some ⟨200, [("X-Request-ID", Header.get req.header "X-Request-ID")], some "[]"⟩

/-- A news service that answers 200 and a comment service that answers with
the given status and body. -/
def commentsFail (status : Nat) (body : String) : Client := fun req =>
  if "http://localhost:8082".toList.isPrefixOf req.url.toList then
    some ⟨200, [], some "\x7b\"id\":7\x7d\n"⟩
  else some ⟨status, [], some body⟩

/-- A gateway environment for the examples. -/
def sampleEnv (client : Client) : Env :=
  { esc := fun s => s, raw := sampleRaw, urlOK := sampleURLOK, client := client }

end APIGateway

/-! # News service: search handler and middleware chain -/

namespace NewsAggregator

/-- Go's `int` on a 64-bit platform: the value of an integer expression after
two's-complement wrap-around. -/
def wrapInt64 (x : Int) : Int :=
  (x + 9223372036854775808) % 18446744073709551616 - 9223372036854775808

/-- The constant `itemsPerPage` of `getNews`. -/
def itemsPerPage : Int := 15

/-- The variable `page` of `getNews`: 1 unless the parameter is present,
parses with `strconv.Atoi` and is positive. -/
def pageOf (pageStr : String) : Int :=
  if pageStr ≠ "" then
    match Atoi pageStr with
    | some p => if p > 0 then p else 1
    | none => 1
  else 1

/-- The variable `offset` of `getNews`, `(page - 1) * itemsPerPage` in `int`
arithmetic. -/
def offsetOf (page : Int) : Int :=
  wrapInt64 (wrapInt64 (page - 1) * itemsPerPage)

/-- The variable `totalPages` of `getNews`,
`(total + itemsPerPage - 1) / itemsPerPage` in `int` arithmetic; the division
of Go truncates toward zero. -/
def totalPagesOf (total : Int) : Int :=
  (wrapInt64 (wrapInt64 (total + itemsPerPage) - 1)).tdiv itemsPerPage

/-- The map `pagination` of the search response. -/
structure Pagination where
  current_page : Int
  total_pages : Int
  items_per_page : Int
deriving DecidableEq, Repr

/-- What `API.getNews` has sent when it returns: an error text, or the
document with the posts and the pagination. -/
inductive SearchReply where
  | text (status : Nat) (msg : String)
  | page (status : Nat) (posts : List Post) (pagination : Pagination)
deriving DecidableEq, Repr

/-- The handler `API.getNews` of the news service; `query` and `pageStr` are
the query parameters `s` and `page`, empty when missing. -/
def API.getNews (tm : GoTime) (lower : Char → Char) (countFault selectFault : Bool)
    (db : Storage) (query pageStr : String) : SearchReply :=
  let page := pageOf pageStr
  let offset := offsetOf page
  match db.SearchPostsByTitle tm lower countFault selectFault query itemsPerPage offset with
  | (_, _, some _) => .text 500 "Error retrieving posts"
  | (posts, total, none) => .page 200 posts ⟨page, totalPagesOf total, itemsPerPage⟩

/-- A table of nine posts, the post with id `k` published at second `k`. -/
def ninePosts : Storage :=
  ⟨[⟨1, "n1", "c", 1, "l1"⟩, ⟨2, "n2", "c", 2, "l2"⟩, ⟨3, "n3", "c", 3, "l3"⟩,
    ⟨4, "n4", "c", 4, "l4"⟩, ⟨5, "n5", "c", 5, "l5"⟩, ⟨6, "n6", "c", 6, "l6"⟩,
    ⟨7, "n7", "c", 7, "l7"⟩, ⟨8, "n8", "c", 8, "l8"⟩, ⟨9, "n9", "c", 9, "l9"⟩], 9⟩

/-- The function `requestIDMiddleware` of `cmd/server/main.go`: the request
header map as `next` receives it.  `queryRequestID` is
`r.URL.Query().Get("request_id")`, `uuid` is what `uuid.NewString()` returns. -/
def requestIDMiddleware (uuid : String) (queryRequestID : String)
    (reqHeader : APIGateway.Header) : APIGateway.Header :=
  let requestID := if queryRequestID = "" then uuid else queryRequestID
  APIGateway.Header.set reqHeader "X-Request-ID" requestID

/-- The function `RequestIDMiddleware` of `pkg/api`: the `request_id` of the
context and the response header map after `w.Header().Set`. -/
def RequestIDMiddleware (uuid : String) (reqHeader respHeader : APIGateway.Header) :
    String × APIGateway.Header :=
  let requestID :=
    if APIGateway.Header.get reqHeader "X-Request-ID" = "" then uuid
    else APIGateway.Header.get reqHeader "X-Request-ID"
  (requestID, APIGateway.Header.set respHeader "X-Request-ID" requestID)

/-- The `X-Request-ID` header of a response of the news service under the
chain `main` installs: `router.Use(requestIDMiddleware)`, then
`RequestIDMiddleware` from `RegisterRoutes`.  The handlers set `Content-Type`
only.  `uuid1` and `uuid2` are the strings the two middlewares would
generate. -/
def responseRequestID (uuid1 uuid2 : String) (queryRequestID : String)
    (reqHeader : APIGateway.Header) : String :=
  APIGateway.Header.get
    (RequestIDMiddleware uuid2 (requestIDMiddleware uuid1 queryRequestID reqHeader) []).2
    "X-Request-ID"

end NewsAggregator

/-! # Comment service: middleware -/

namespace CommentsService

/-- The schema invariant of `comments` that the sequence keeps: every `id`
was handed out by it. -/
def DB.WF (db : DB) : Prop := ∀ r ∈ db.rows, r.id ≤ db.seq

/-- The function `RequestIDMiddleware` of the comment service: the
`request_id` of the context and the response header map. -/
def RequestIDMiddleware (uuid : String) (reqHeader respHeader : APIGateway.Header) :
    String × APIGateway.Header :=
  let requestID :=
    if APIGateway.Header.get reqHeader "X-Request-ID" = "" then uuid
    else APIGateway.Header.get reqHeader "X-Request-ID"
  (requestID, APIGateway.Header.set respHeader "X-Request-ID" requestID)

/-- A `POST /comments` under the chain of `RegisterRoutes`: the identifier
`RequestIDMiddleware` establishes and what `AddCommentHandler` then does.  The
handler is called with the request whose context holds the identifier; it
passes the content alone to `checkCensorship`. -/
def servePost (uuid : String) (client : CensorClient) (saveFault : Bool) (db : DB)
    (reqHeader : APIGateway.Header) (body : Option Comment) : String × AddOutcome :=
  ((RequestIDMiddleware uuid reqHeader []).1, API.AddCommentHandler client saveFault db body)

end CommentsService

namespace NewsAggregator

/-! ## Theorems: write path -/

theorem insert_fault (db : Storage) (title content : String) (t : Int) (link : String) :
    db.insert true title content t link = (.error .fault, db) := by
  simp [Storage.insert]

theorem insert_conflict (db : Storage) (title content : String) (t : Int) (link : String)
    (h : db.Conflict link) :
    db.insert false title content t link = (.error .uniqueViolation, ⟨db.rows, db.seq + 1⟩) := by
  have hdup : (db.rows.any (fun r => r.id == db.seq + 1) ||
      db.rows.any (fun r => r.link == link)) = true := by
    simp only [Bool.or_eq_true, List.any_eq_true, beq_iff_eq]
    rcases h with ⟨r, hr, h⟩ | h
    · exact Or.inl ⟨r, hr, h⟩
    · obtain ⟨r, hr, h⟩ := List.mem_map.1 h
      exact Or.inr ⟨r, hr, h⟩
  simp only [Storage.insert, Bool.false_eq_true, if_false, hdup, if_true]

theorem insert_fresh (db : Storage) (title content : String) (t : Int) (link : String)
    (h : ¬ db.Conflict link) :
    db.insert false title content t link =
      (.ok (db.seq + 1), ⟨db.rows ++ [⟨db.seq + 1, title, content, t, link⟩], db.seq + 1⟩) := by
  have hdup : ¬ (db.rows.any (fun r => r.id == db.seq + 1) ||
      db.rows.any (fun r => r.link == link)) = true := by
    intro hd
    apply h
    simp only [Bool.or_eq_true, List.any_eq_true, beq_iff_eq] at hd
    rcases hd with ⟨r, hr, h⟩ | ⟨r, hr, h⟩
    · exact Or.inl ⟨r, hr, h⟩
    · exact Or.inr (List.mem_map.2 ⟨r, hr, h⟩)
  simp only [Storage.insert, Bool.false_eq_true, if_false, hdup]

theorem SavePostTx_parse_none (tm : GoTime) (fault : Bool) (tx : Storage) (post : Post)
    (h : parsePubDate tm post.PubDate = none) :
    tx.SavePostTx tm fault post = (some .parseTime, tx) := by
  simp only [Storage.SavePostTx, h]

theorem SavePostTx_fault (tm : GoTime) (tx : Storage) (post : Post) (t : Int)
    (h : parsePubDate tm post.PubDate = some t) :
    tx.SavePostTx tm true post = (some (.insertPost .fault), tx) := by
  simp only [Storage.SavePostTx, h, Storage.insert, if_true]

theorem SavePostTx_conflict (tm : GoTime) (tx : Storage) (post : Post) (t : Int)
    (h : parsePubDate tm post.PubDate = some t) (hc : tx.Conflict post.Link) :
    tx.SavePostTx tm false post =
      (some (.insertPost .uniqueViolation), ⟨tx.rows, tx.seq + 1⟩) := by
  simp only [Storage.SavePostTx, h, insert_conflict tx _ _ _ _ hc]

theorem SavePostTx_fresh (tm : GoTime) (tx : Storage) (post : Post) (t : Int)
    (h : parsePubDate tm post.PubDate = some t) (hc : ¬ tx.Conflict post.Link) :
    tx.SavePostTx tm false post =
      (none, ⟨tx.rows ++ [⟨tx.seq + 1, post.Title, post.Content, t, post.Link⟩], tx.seq + 1⟩) := by
  simp only [Storage.SavePostTx, h, insert_fresh tx _ _ _ _ hc]

/-- The three ways `SavePostTx` ends: an error that leaves the rows alone, or
the row of the post appended. -/
theorem SavePostTx_cases (tm : GoTime) (fault : Bool) (tx : Storage) (post : Post) :
    ((∃ e, (tx.SavePostTx tm fault post).1 = some e) ∧
        (tx.SavePostTx tm fault post).2.rows = tx.rows ∧
        (parsePubDate tm post.PubDate = none ∨ fault = true ∨ tx.Conflict post.Link)) ∨
    (∃ t, parsePubDate tm post.PubDate = some t ∧ fault = false ∧ ¬ tx.Conflict post.Link ∧
        tx.SavePostTx tm fault post =
          (none, ⟨tx.rows ++ [⟨tx.seq + 1, post.Title, post.Content, t, post.Link⟩],
            tx.seq + 1⟩)) := by
  cases hp : parsePubDate tm post.PubDate with
  | none =>
    left
    rw [SavePostTx_parse_none tm fault tx post hp]
    exact ⟨⟨_, rfl⟩, rfl, Or.inl rfl⟩
  | some t =>
    cases fault with
    | true =>
      left
      rw [SavePostTx_fault tm tx post t hp]
      exact ⟨⟨_, rfl⟩, rfl, Or.inr (Or.inl rfl)⟩
    | false =>
      by_cases hc : tx.Conflict post.Link
      · left
        rw [SavePostTx_conflict tm tx post t hp hc]
        exact ⟨⟨_, rfl⟩, rfl, Or.inr (Or.inr hc)⟩
      · right
        exact ⟨t, rfl, rfl, hc, SavePostTx_fresh tm tx post t hp hc⟩

/-- The loop ends with an error, or it has appended one row per post. -/
theorem savePostsLoop_ok (tm : GoTime) (stmtFault : Nat → Bool) (posts : List Post) :
    ∀ (k : Nat) (tx : Storage), (Storage.savePostsLoop tm stmtFault k tx posts).1 = none →
      ∃ added, (Storage.savePostsLoop tm stmtFault k tx posts).2.rows = tx.rows ++ added ∧
        List.Forall₂ (Inserted tm) posts added := by
  induction posts with
  | nil =>
    intro k tx _
    exact ⟨[], by simp [Storage.savePostsLoop], List.Forall₂.nil⟩
  | cons post rest ih =>
    intro k tx h
    rcases SavePostTx_cases tm (stmtFault k) tx post with ⟨⟨e, he⟩, _, _⟩ | ⟨t, hp, _, _, heq⟩
    · exfalso
      have : (Storage.savePostsLoop tm stmtFault k tx (post :: rest)).1 = some (.savePost e) := by
        cases hr : tx.SavePostTx tm (stmtFault k) post with
        | mk a b =>
          rw [hr] at he
          simp only at he
          subst he
          simp only [Storage.savePostsLoop, hr]
      rw [this] at h
      exact Option.noConfusion h
    · have hstep : Storage.savePostsLoop tm stmtFault k tx (post :: rest) =
          Storage.savePostsLoop tm stmtFault (k + 1)
            ⟨tx.rows ++ [⟨tx.seq + 1, post.Title, post.Content, t, post.Link⟩], tx.seq + 1⟩ rest := by
        simp only [Storage.savePostsLoop, heq]
      rw [hstep] at h ⊢
      obtain ⟨added, hrows, hall⟩ := ih _ _ h
      refine ⟨⟨tx.seq + 1, post.Title, post.Content, t, post.Link⟩ :: added, ?_, ?_⟩
      · rw [hrows]; simp
      · exact List.Forall₂.cons ⟨rfl, rfl, rfl, hp⟩ hall

theorem SavePostTx_seq_le (tm : GoTime) (fault : Bool) (tx : Storage) (post : Post) :
    tx.seq ≤ (tx.SavePostTx tm fault post).2.seq := by
  cases hp : parsePubDate tm post.PubDate with
  | none => rw [SavePostTx_parse_none tm fault tx post hp]
  | some t =>
    cases fault with
    | true => rw [SavePostTx_fault tm tx post t hp]
    | false =>
      by_cases hc : tx.Conflict post.Link
      · rw [SavePostTx_conflict tm tx post t hp hc]; simp
      · rw [SavePostTx_fresh tm tx post t hp hc]; simp

theorem WF_of_rows_eq {db db' : Storage} (h : db.WF) (hrows : db'.rows = db.rows)
    (hseq : db.seq ≤ db'.seq) : db'.WF := by
  obtain ⟨h1, h2, h3⟩ := h
  refine ⟨by rw [hrows]; exact h1, by rw [hrows]; exact h2, ?_⟩
  intro r hr
  rw [hrows] at hr
  exact le_trans (h3 r hr) hseq

theorem WF_append (db : Storage) (title content : String) (t : Int) (link : String)
    (h : db.WF) (hl : link ∉ db.rows.map (fun r => r.link)) :
    Storage.WF ⟨db.rows ++ [⟨db.seq + 1, title, content, t, link⟩], db.seq + 1⟩ := by
  obtain ⟨h1, h2, h3⟩ := h
  refine ⟨?_, ?_, ?_⟩
  · simp only [List.map_append, List.map_cons, List.map_nil]
    refine List.Nodup.append h1 (List.nodup_singleton _) ?_
    intro x hx hx'
    rw [List.mem_singleton] at hx'
    subst hx'
    exact hl hx
  · simp only [List.map_append, List.map_cons, List.map_nil]
    refine List.Nodup.append h2 (List.nodup_singleton _) ?_
    intro x hx hx'
    rw [List.mem_singleton] at hx'
    subst hx'
    obtain ⟨r, hr, hid⟩ := List.mem_map.1 hx
    have := h3 r hr
    omega
  · intro r hr
    rcases List.mem_append.1 hr with hr | hr
    · have := h3 r hr
      show r.id ≤ db.seq + 1
      omega
    · rw [List.mem_singleton] at hr
      subst hr
      exact le_refl _

/-- Every call of `SavePostTx` keeps the schema invariants. -/
theorem SavePostTx_WF (tm : GoTime) (fault : Bool) (tx : Storage) (post : Post) (h : tx.WF) :
    (tx.SavePostTx tm fault post).2.WF := by
  cases hp : parsePubDate tm post.PubDate with
  | none => rw [SavePostTx_parse_none tm fault tx post hp]; exact h
  | some t =>
    cases fault with
    | true => rw [SavePostTx_fault tm tx post t hp]; exact h
    | false =>
      by_cases hc : tx.Conflict post.Link
      · rw [SavePostTx_conflict tm tx post t hp hc]
        exact WF_of_rows_eq h rfl (by simp)
      · rw [SavePostTx_fresh tm tx post t hp hc]
        exact WF_append tx _ _ _ _ h (fun hm => hc (Or.inr hm))

theorem savePostsLoop_cons_err (tm : GoTime) (stmtFault : Nat → Bool) (k : Nat) (tx : Storage)
    (post : Post) (rest : List Post) (e : StoreError)
    (he : (tx.SavePostTx tm (stmtFault k) post).1 = some e) :
    Storage.savePostsLoop tm stmtFault k tx (post :: rest) =
      (some (.savePost e), (tx.SavePostTx tm (stmtFault k) post).2) := by
  cases hr : tx.SavePostTx tm (stmtFault k) post with
  | mk a b =>
    rw [hr] at he
    simp only at he
    subst he
    simp only [Storage.savePostsLoop, hr]

theorem savePostsLoop_cons_ok (tm : GoTime) (stmtFault : Nat → Bool) (k : Nat) (tx : Storage)
    (post : Post) (rest : List Post)
    (he : (tx.SavePostTx tm (stmtFault k) post).1 = none) :
    Storage.savePostsLoop tm stmtFault k tx (post :: rest) =
      Storage.savePostsLoop tm stmtFault (k + 1) (tx.SavePostTx tm (stmtFault k) post).2 rest := by
  cases hr : tx.SavePostTx tm (stmtFault k) post with
  | mk a b =>
    rw [hr] at he
    simp only at he
    subst he
    simp only [Storage.savePostsLoop, hr]

theorem savePostsLoop_step (tm : GoTime) (stmtFault : Nat → Bool) (k : Nat) (tx : Storage)
    (post : Post) (rest : List Post) :
    (∃ e, Storage.savePostsLoop tm stmtFault k tx (post :: rest) =
        (some (.savePost e), (tx.SavePostTx tm (stmtFault k) post).2) ∧
        (tx.SavePostTx tm (stmtFault k) post).1 = some e) ∨
    (Storage.savePostsLoop tm stmtFault k tx (post :: rest) =
        Storage.savePostsLoop tm stmtFault (k + 1) (tx.SavePostTx tm (stmtFault k) post).2 rest ∧
        (tx.SavePostTx tm (stmtFault k) post).1 = none) := by
  cases he : (tx.SavePostTx tm (stmtFault k) post).1 with
  | some e => exact Or.inl ⟨e, savePostsLoop_cons_err tm stmtFault k tx post rest e he, rfl⟩
  | none => exact Or.inr ⟨savePostsLoop_cons_ok tm stmtFault k tx post rest he, rfl⟩

theorem savePostsLoop_seq_le (tm : GoTime) (stmtFault : Nat → Bool) (posts : List Post) :
    ∀ (k : Nat) (tx : Storage), tx.seq ≤ (Storage.savePostsLoop tm stmtFault k tx posts).2.seq := by
  induction posts with
  | nil => intro k tx; simp [Storage.savePostsLoop]
  | cons post rest ih =>
    intro k tx
    rcases savePostsLoop_step tm stmtFault k tx post rest with ⟨e, heq, _⟩ | ⟨heq, _⟩
    · rw [heq]; exact SavePostTx_seq_le tm _ tx post
    · rw [heq]; exact le_trans (SavePostTx_seq_le tm _ tx post) (ih _ _)

theorem savePostsLoop_WF (tm : GoTime) (stmtFault : Nat → Bool) (posts : List Post) :
    ∀ (k : Nat) (tx : Storage), tx.WF → (Storage.savePostsLoop tm stmtFault k tx posts).2.WF := by
  induction posts with
  | nil => intro k tx h; simpa [Storage.savePostsLoop] using h
  | cons post rest ih =>
    intro k tx h
    rcases savePostsLoop_step tm stmtFault k tx post rest with ⟨e, heq, _⟩ | ⟨heq, _⟩
    · rw [heq]; exact SavePostTx_WF tm _ tx post h
    · rw [heq]; exact ih _ _ (SavePostTx_WF tm _ tx post h)

/-- The three ways `SavePosts` ends. -/
theorem SavePosts_cases (tm : GoTime) (drv : Driver) (db : Storage) (posts : List Post) :
    (drv.beginFault = true ∧ db.SavePosts tm drv posts = (some .beginTx, db)) ∨
    (drv.beginFault = false ∧
      ∃ e, db.SavePosts tm drv posts =
          (some e, db.rollback (Storage.savePostsLoop tm drv.stmtFault 0 db posts).2) ∧
        ((Storage.savePostsLoop tm drv.stmtFault 0 db posts).1 = some e ∨
          ((Storage.savePostsLoop tm drv.stmtFault 0 db posts).1 = none ∧
            drv.commitFault = true))) ∨
    (drv.beginFault = false ∧ drv.commitFault = false ∧
      (Storage.savePostsLoop tm drv.stmtFault 0 db posts).1 = none ∧
      db.SavePosts tm drv posts = (none, (Storage.savePostsLoop tm drv.stmtFault 0 db posts).2)) := by
  unfold Storage.SavePosts
  cases hb : drv.beginFault with
  | true => left; simp
  | false =>
    right
    simp only [Bool.false_eq_true, if_false, true_and]
    cases hr : Storage.savePostsLoop tm drv.stmtFault 0 db posts with
    | mk err tx =>
      cases err with
      | some e => left; exact ⟨e, rfl, Or.inl rfl⟩
      | none =>
        cases hc : drv.commitFault with
        | true => left; exact ⟨.commitTx, by simp, Or.inr ⟨rfl, rfl⟩⟩
        | false => right; simp

theorem SavePosts_err_rows (tm : GoTime) (drv : Driver) (db : Storage) (posts : List Post)
    (h : (db.SavePosts tm drv posts).1 ≠ none) : (db.SavePosts tm drv posts).2.rows = db.rows := by
  rcases SavePosts_cases tm drv db posts with ⟨_, heq⟩ | ⟨_, e, heq, _⟩ | ⟨_, _, _, heq⟩
  · rw [heq]
  · rw [heq]; rfl
  · rw [heq] at h; exact absurd rfl h

theorem SavePosts_err_of_loop (tm : GoTime) (drv : Driver) (db : Storage) (posts : List Post)
    (h : (Storage.savePostsLoop tm drv.stmtFault 0 db posts).1 ≠ none) :
    (db.SavePosts tm drv posts).1 ≠ none := by
  rcases SavePosts_cases tm drv db posts with ⟨_, heq⟩ | ⟨_, e, heq, _⟩ | ⟨_, _, hl, _⟩
  · rw [heq]; simp
  · rw [heq]; simp
  · exact absurd hl h

theorem SavePosts_WF (tm : GoTime) (drv : Driver) (db : Storage) (posts : List Post)
    (h : db.WF) : (db.SavePosts tm drv posts).2.WF := by
  rcases SavePosts_cases tm drv db posts with ⟨_, heq⟩ | ⟨_, e, heq, _⟩ | ⟨_, _, _, heq⟩
  · rw [heq]; exact h
  · rw [heq]
    exact WF_of_rows_eq h rfl (savePostsLoop_seq_le tm drv.stmtFault posts 0 db)
  · rw [heq]; exact savePostsLoop_WF tm drv.stmtFault posts 0 db h

theorem SavePost_eq_SavePostTx (tm : GoTime) (fault : Bool) (db : Storage) (post : Post) :
    db.SavePost tm fault post = db.SavePostTx tm fault post := rfl

/-- The schema invariants hold in every reachable state. -/
theorem Reachable.wf {tm : GoTime} {db : Storage} (h : Reachable tm db) : db.WF := by
  induction h with
  | reset => exact ⟨List.nodup_nil, List.nodup_nil, by intro r hr; cases hr⟩
  | savePost fault db post _ ih =>
    rw [SavePost_eq_SavePostTx]; exact SavePostTx_WF tm fault db post ih
  | savePosts drv db posts _ ih => exact SavePosts_WF tm drv db posts ih

/-- A batch with an item whose date no layout parses makes the loop fail. -/
theorem savePostsLoop_unparsable (tm : GoTime) (stmtFault : Nat → Bool) (posts : List Post) :
    ∀ (k : Nat) (tx : Storage), (∃ p ∈ posts, parsePubDate tm p.PubDate = none) →
      (Storage.savePostsLoop tm stmtFault k tx posts).1 ≠ none := by
  induction posts with
  | nil => rintro k tx ⟨p, hp, _⟩; cases hp
  | cons post rest ih =>
    rintro k tx ⟨p, hp, hnone⟩
    rcases savePostsLoop_step tm stmtFault k tx post rest with ⟨e, heq, _⟩ | ⟨heq, hok⟩
    · rw [heq]; simp
    · rw [heq]
      rcases List.mem_cons.1 hp with rfl | hmem
      · rw [SavePostTx_parse_none tm _ tx p hnone] at hok
        exact absurd hok (by simp)
      · exact ih _ _ ⟨p, hmem, hnone⟩

/-- A batch with a link that is stored or repeated makes the loop fail. -/
theorem savePostsLoop_not_fresh (tm : GoTime) (stmtFault : Nat → Bool) (posts : List Post) :
    ∀ (k : Nat) (tx : Storage), ¬ FreshLinks tx posts →
      (Storage.savePostsLoop tm stmtFault k tx posts).1 ≠ none := by
  induction posts with
  | nil =>
    intro k tx h
    exact absurd ⟨List.nodup_nil, by intro p hp; cases hp⟩ h
  | cons post rest ih =>
    intro k tx h
    rcases savePostsLoop_step tm stmtFault k tx post rest with ⟨e, heq, _⟩ | ⟨heq, hok⟩
    · rw [heq]; simp
    · rw [heq]
      rcases SavePostTx_cases tm (stmtFault k) tx post with ⟨⟨e, he⟩, _, _⟩ | ⟨t, _, _, hc, hres⟩
      · rw [he] at hok; exact absurd hok (by simp)
      · rw [hres]
        apply ih
        intro hfresh
        apply h
        obtain ⟨hnd, hnot⟩ := hfresh
        have hlink : post.Link ∉ tx.rows.map (fun r => r.link) := fun hm => hc (Or.inr hm)
        refine ⟨?_, ?_⟩
        · simp only [List.map_cons, List.nodup_cons]
          refine ⟨?_, hnd⟩
          intro hm
          obtain ⟨p, hp, hpl⟩ := List.mem_map.1 hm
          apply hnot p hp
          simp only [List.map_append, List.map_cons, List.map_nil, List.mem_append,
            List.mem_singleton]
          exact Or.inr hpl
        · intro p hp
          rcases List.mem_cons.1 hp with rfl | hmem
          · exact hlink
          · intro hm
            apply hnot p hmem
            simp only [List.map_append, List.mem_append]
            exact Or.inl hm

/-- C1. `SavePosts` is all-or-nothing: when it returns an error the rows of
`posts` after the call are the rows from before the call, and when it returns
`nil` the table holds the old rows followed by one row for every item of the
batch, in order, carrying that item's title, content, link and parsed time. -/
theorem SavePosts_atomic (tm : GoTime) (drv : Driver) (db : Storage) (posts : List Post) :
    ((db.SavePosts tm drv posts).1 ≠ none → (db.SavePosts tm drv posts).2.rows = db.rows) ∧
    ((db.SavePosts tm drv posts).1 = none →
      ∃ added, (db.SavePosts tm drv posts).2.rows = db.rows ++ added ∧
        List.Forall₂ (Inserted tm) posts added) := by
  unfold Storage.SavePosts
  cases hb : drv.beginFault with
  | true => simp
  | false =>
    simp only [Bool.false_eq_true, if_false]
    have hloop := savePostsLoop_ok tm drv.stmtFault posts 0 db
    cases hr : Storage.savePostsLoop tm drv.stmtFault 0 db posts with
    | mk err tx =>
      rw [hr] at hloop
      cases err with
      | some e => simp [Storage.rollback]
      | none =>
        cases hc : drv.commitFault with
        | true => simp [Storage.rollback]
        | false =>
          simp only [Bool.false_eq_true, if_false, ne_eq, not_true_eq_false, false_implies,
            true_and, forall_const]
          exact hloop rfl

/-- C3. In every state that calls of `SavePost` and `SavePosts` reach from the
freshly created table no two rows have the same link; and a `SavePosts` call
with a batch whose links are all stored already leaves the number of rows, and
with it the length of `GetLastNPosts(n)` for every `n`, as it was. -/
theorem link_unique_invariant (tm : GoTime) (db : Storage) (h : Reachable tm db) :
    db.rows.Pairwise (fun a b => a.link ≠ b.link) ∧
    ∀ (drv : Driver) (posts : List Post),
      (∀ p ∈ posts, p.Link ∈ db.rows.map (fun r => r.link)) →
      (db.SavePosts tm drv posts).2.rows.length = db.rows.length ∧
      ∀ (fault : Bool) (n : Int),
        ((db.SavePosts tm drv posts).2.GetLastNPosts tm fault n).1.length =
          (db.GetLastNPosts tm fault n).1.length := by
  constructor
  · have := h.wf.1
    rwa [List.Nodup, List.pairwise_map] at this
  · intro drv posts hstored
    have hrows : (db.SavePosts tm drv posts).2.rows = db.rows := by
      cases posts with
      | nil =>
        rcases SavePosts_cases tm drv db [] with ⟨_, heq⟩ | ⟨_, e, heq, _⟩ | ⟨_, _, _, heq⟩
        · rw [heq]
        · rw [heq]; rfl
        · rw [heq]; rfl
      | cons post rest =>
        apply SavePosts_err_rows
        apply SavePosts_err_of_loop
        apply savePostsLoop_not_fresh
        intro hfresh
        exact hfresh.2 post (List.mem_cons_self _ _) (hstored post (List.mem_cons_self _ _))
    refine ⟨by rw [hrows], ?_⟩
    intro fault n
    simp only [Storage.GetLastNPosts, Storage.selectLastN, hrows]

theorem link_unique_invariant_witness :
    (resetTable.SavePosts sampleTime Driver.healthy [postA1, postB]).2.rows.Pairwise
      (fun a b => a.link ≠ b.link) ∧
    ((resetTable.SavePosts sampleTime Driver.healthy [postA1, postB]).2.SavePosts sampleTime
      Driver.healthy [postA2, postB]).2.rows.length = 2 :=
  ⟨(link_unique_invariant sampleTime _
      (Reachable.savePosts Driver.healthy resetTable [postA1, postB] Reachable.reset)).1,
    ((link_unique_invariant sampleTime _
      (Reachable.savePosts Driver.healthy resetTable [postA1, postB] Reachable.reset)).2
      Driver.healthy [postA2, postB] (by decide)).1⟩

/-- C4, refuted as stated: a batch of one undated item and one valid item with a
fresh link makes `SavePosts` return an error and leaves the table empty, in
either order of the two items. -/
theorem SavePosts_undated_item_aborts :
    resetTable.SavePosts sampleTime Driver.healthy [postBad, postB] =
      (some (.savePost .parseTime), ⟨[], 0⟩) ∧
    resetTable.SavePosts sampleTime Driver.healthy [postB, postBad] =
      (some (.savePost .parseTime), ⟨[], 1⟩) := by
  decide

/-- C4, as amended.  A batch that contains an item whose date none of the four
layouts parses makes `SavePosts` return an error, and the rows are the rows
from before the call: neither that item nor any other item of the batch is
stored. -/
theorem SavePosts_unparsable_item (tm : GoTime) (drv : Driver) (db : Storage)
    (posts : List Post) (h : ∃ p ∈ posts, parsePubDate tm p.PubDate = none) :
    (db.SavePosts tm drv posts).1 ≠ none ∧ (db.SavePosts tm drv posts).2.rows = db.rows := by
  have herr := SavePosts_err_of_loop tm drv db posts
    (savePostsLoop_unparsable tm drv.stmtFault posts 0 db h)
  exact ⟨herr, SavePosts_err_rows tm drv db posts herr⟩

theorem SavePosts_unparsable_item_witness :
    (resetTable.SavePosts sampleTime Driver.healthy [postB, postBad]).1 ≠ none ∧
    (resetTable.SavePosts sampleTime Driver.healthy [postB, postBad]).2.rows = resetTable.rows :=
  SavePosts_unparsable_item sampleTime Driver.healthy resetTable [postB, postBad]
    ⟨postBad, by decide, by decide⟩

/-! ## Theorems: read path -/

theorem orderByPubTimeDesc_perm (rows : List Row) : (orderByPubTimeDesc rows).Perm rows :=
  List.perm_insertionSort _ rows

theorem orderByPubTimeDesc_sorted (rows : List Row) :
    (orderByPubTimeDesc rows).Pairwise Row.newerEq := by
  haveI : IsTotal Row Row.newerEq := ⟨fun a b => le_total b.pub_time a.pub_time⟩
  haveI : IsTrans Row Row.newerEq := ⟨fun a b c hab hbc => le_trans hbc hab⟩
  exact List.sorted_insertionSort Row.newerEq rows

theorem take_drop_of_sorted (l : List Row) (k : Nat) (h : l.Pairwise Row.newerEq) :
    ∀ a ∈ l.take k, ∀ b ∈ l.drop k, b.pub_time ≤ a.pub_time := by
  have h' : (l.take k ++ l.drop k).Pairwise Row.newerEq := by
    rw [List.take_append_drop]; exact h
  rw [List.pairwise_append] at h'
  exact h'.2.2

/-- C5, refuted as stated: two items published at the same second are both
stored, `GetLastNPosts(2)` returns both with the same date, and the rows it
read are not strictly descending by `pub_time`. -/
theorem GetLastNPosts_equal_times :
    (resetTable.SavePosts sampleTime Driver.healthy [postB, postB2]).1 = none ∧
    ((resetTable.SavePosts sampleTime Driver.healthy [postB, postB2]).2.GetLastNPosts
        sampleTime false 2).1.map (fun p => (p.Title, p.PubDate)) =
      [("other", "Wed, 04 Jan 2006 22:04:05 +0000"),
       ("twin", "Wed, 04 Jan 2006 22:04:05 +0000")] ∧
    ¬ ((resetTable.SavePosts sampleTime Driver.healthy [postB, postB2]).2.selectLastN 2).Pairwise
        (fun a b => b.pub_time < a.pub_time) := by
  decide

/-- C5, as amended.  For `0 ≤ n` and a query that does not fault,
`GetLastNPosts(n)` returns no error and the posts scanned from a row list `sel`
such that: `sel` has `min(n, number of rows)` elements; `sel` is descending by
`pub_time`, rows of equal time in either order; `sel` together with the rows
left out is the whole table, and no row left out is newer than a row of
`sel`.  `GetLastNPosts(0)` is empty, and after one successful `SavePost` into
the fresh table `GetLastNPosts(1)` is one post with the title of the saved
post. -/
theorem GetLastNPosts_spec (tm : GoTime) (db : Storage) (n : Int) (hn : 0 ≤ n) :
    db.GetLastNPosts tm false n = ((db.selectLastN n).map (scanPost tm), none) ∧
    (((db.GetLastNPosts tm false n).1.length : Nat) : Int) = min n db.rows.length ∧
    (db.selectLastN n).Pairwise (fun a b => b.pub_time ≤ a.pub_time) ∧
    (∃ rest, (db.selectLastN n ++ rest).Perm db.rows ∧
      ∀ a ∈ db.selectLastN n, ∀ b ∈ rest, b.pub_time ≤ a.pub_time) ∧
    db.GetLastNPosts tm false 0 = ([], none) ∧
    ∀ post : Post, (resetTable.SavePost tm false post).1 = none →
      ∃ p, (resetTable.SavePost tm false post).2.GetLastNPosts tm false 1 = ([p], none) ∧
        p.Title = post.Title := by
  have hres : db.GetLastNPosts tm false n = ((db.selectLastN n).map (scanPost tm), none) := by
    have : ¬ n < 0 := not_lt.2 hn
    simp [Storage.GetLastNPosts, this]
  refine ⟨hres, ?_, ?_, ?_, ?_, ?_⟩
  · rw [hres]
    simp only [List.length_map, Storage.selectLastN, List.length_take,
      (orderByPubTimeDesc_perm db.rows).length_eq]
    omega
  · exact (orderByPubTimeDesc_sorted db.rows).sublist (List.take_sublist _ _)
  · refine ⟨(orderByPubTimeDesc db.rows).drop n.toNat, ?_, ?_⟩
    · simp only [Storage.selectLastN, List.take_append_drop]
      exact orderByPubTimeDesc_perm db.rows
    · exact take_drop_of_sorted _ _ (orderByPubTimeDesc_sorted db.rows)
  · simp [Storage.GetLastNPosts, Storage.selectLastN]
  · intro post hok
    rw [SavePost_eq_SavePostTx] at hok ⊢
    rcases SavePostTx_cases tm false resetTable post with ⟨⟨e, he⟩, _, _⟩ | ⟨t, _, _, _, heq⟩
    · rw [he] at hok; cases hok
    · rw [heq]
      refine ⟨scanPost tm ⟨resetTable.seq + 1, post.Title, post.Content, t, post.Link⟩, ?_, rfl⟩
      simp [Storage.GetLastNPosts, Storage.selectLastN, resetTable, orderByPubTimeDesc]

theorem GetLastNPosts_spec_witness :
    ((resetTable.SavePosts sampleTime Driver.healthy [postA1, postB, postB2]).2.GetLastNPosts
      sampleTime false 2).1.map (fun p => p.Title) = ["other", "twin"] ∧
    ((((resetTable.SavePosts sampleTime Driver.healthy [postA1, postB, postB2]).2.GetLastNPosts
      sampleTime false 2).1.length : Nat) : Int) =
      min 2 (resetTable.SavePosts sampleTime Driver.healthy [postA1, postB, postB2]).2.rows.length :=
  ⟨by decide,
    (GetLastNPosts_spec sampleTime
      (resetTable.SavePosts sampleTime Driver.healthy [postA1, postB, postB2]).2 2
      (by decide)).2.1⟩

theorem anySuffix_of_nil (f : List Char → Bool) (h : f [] = true) :
    ∀ t, anySuffix f t = true
  | [] => by simp [anySuffix, h]
  | _ :: t => by simp [anySuffix, anySuffix_of_nil f h t]

theorem anySuffix_of_all (f : List Char → Bool) (h : ∀ s, f s = true) :
    ∀ t, anySuffix f t = true
  | [] => by simp [anySuffix, h]
  | _ :: t => by simp [anySuffix, h]

theorem anySuffix_congr (f g : List Char → Bool) (h : ∀ s, f s = g s) :
    ∀ t, anySuffix f t = anySuffix g t
  | [] => by simp [anySuffix, h]
  | _ :: t => by simp [anySuffix, h, anySuffix_congr f g h t]

theorem anySuffix_iff (f : List Char → Bool) :
    ∀ t, anySuffix f t = true ↔ ∃ a s, t = a ++ s ∧ f s = true
  | [] => by
    simp only [anySuffix]
    constructor
    · intro h; exact ⟨[], [], rfl, h⟩
    · rintro ⟨a, s, h, hf⟩
      obtain ⟨_, rfl⟩ := List.append_eq_nil.1 h.symm
      exact hf
  | c :: t => by
    simp only [anySuffix, Bool.or_eq_true, anySuffix_iff f t]
    constructor
    · rintro (h | ⟨a, s, h, hf⟩)
      · exact ⟨[], c :: t, rfl, h⟩
      · exact ⟨c :: a, s, by rw [h]; rfl, hf⟩
    · rintro ⟨a, s, h, hf⟩
      cases a with
      | nil => left; rw [h]; exact hf
      | cons x a =>
        right
        simp only [List.cons_append, List.cons.injEq] at h
        exact ⟨a, s, h.2, hf⟩

theorem likeMatch_nil (t : List Char) : likeMatch [] t = t.isEmpty := by
  rw [likeMatch.eq_def]

theorem likeMatch_percent_cons (p t : List Char) :
    likeMatch ('%' :: p) t = anySuffix (likeMatch p) t := by
  rw [likeMatch.eq_def]
  simp only [if_true]

/-- The pattern `%` matches every text. -/
theorem likeMatch_percent (t : List Char) : likeMatch ['%'] t = true := by
  rw [likeMatch_percent_cons]
  exact anySuffix_of_nil _ (by rw [likeMatch_nil]; rfl) t

/-- The pattern `%%` matches every text. -/
theorem likeMatch_percent_percent (t : List Char) : likeMatch ['%', '%'] t = true := by
  rw [likeMatch_percent_cons]
  exact anySuffix_of_all _ likeMatch_percent t

theorem likeMatch_plain_cons (c : Char) (p t : List Char) (hc : plainChar c) :
    likeMatch (c :: p) t =
      match t with
      | [] => false
      | x :: t' => x == c && likeMatch p t' := by
  obtain ⟨h1, h2, h3⟩ := hc
  rw [likeMatch.eq_def]
  simp only [h1, h2, h3, if_false]

/-- A run of plain characters followed by `%` matches the texts that start
with the run. -/
theorem likeMatch_plain_percent :
    ∀ (q t : List Char), (∀ c ∈ q, plainChar c) → likeMatch (q ++ ['%']) t = q.isPrefixOf t
  | [], t, _ => by
    rw [List.nil_append, likeMatch_percent]
    simp [List.isPrefixOf]
  | c :: q, t, h => by
    rw [List.cons_append, likeMatch_plain_cons c _ t (h c (List.mem_cons_self _ _))]
    cases t with
    | nil => simp [List.isPrefixOf]
    | cons x t' =>
      simp only [List.isPrefixOf]
      rw [likeMatch_plain_percent q t' (fun c hc => h c (List.mem_cons_of_mem _ hc))]
      by_cases hx : x = c
      · subst hx; simp
      · have h1 : (x == c) = false := beq_eq_false_iff_ne.2 hx
        have h2 : (c == x) = false := beq_eq_false_iff_ne.2 (fun h => hx h.symm)
        rw [h1, h2]

/-- Between two `%` a run of plain characters matches the texts in which the
run occurs. -/
theorem likeMatch_percent_plain_percent (q t : List Char) (h : ∀ c ∈ q, plainChar c) :
    likeMatch ('%' :: (q ++ ['%'])) t = occursIn q t := by
  rw [likeMatch_percent_cons, occursIn]
  exact anySuffix_congr _ _ (fun s => likeMatch_plain_percent q s h) t

/-- The occurrence test of the specification is the usual one: `q` occurs in
`t` when `t` is `a ++ q ++ b` for some `a` and `b`. -/
theorem occursIn_iff (q t : List Char) : occursIn q t = true ↔ ∃ a b, t = a ++ q ++ b := by
  rw [occursIn, anySuffix_iff]
  constructor
  · rintro ⟨a, s, ht, hs⟩
    obtain ⟨b, hb⟩ := List.isPrefixOf_iff_prefix.1 hs
    exact ⟨a, b, by rw [ht, ← hb, List.append_assoc]⟩
  · rintro ⟨a, b, ht⟩
    exact ⟨a, q ++ b, by rw [ht, List.append_assoc], List.isPrefixOf_iff_prefix.2 ⟨b, rfl⟩⟩

theorem pattern_toList (lower : Char → Char) (query : String) (hl : lower '%' = '%') :
    ("%" ++ query ++ "%").toList.map lower = '%' :: (query.toList.map lower ++ ['%']) := by
  simp [String.toList, String.data_append, hl]

/-- For a query without `%`, `_` and backslash the condition of the two
statements is the substring test of the specification. -/
theorem titleMatches_plain (lower : Char → Char) (query : String) (hl : lower '%' = '%')
    (hq : ∀ c ∈ query.toList.map lower, plainChar c) (r : Row) :
    titleMatches lower query r = containsIgnoreCase lower query r.title := by
  rw [titleMatches, ilike, pattern_toList lower query hl, containsIgnoreCase]
  exact likeMatch_percent_plain_percent _ _ hq

/-- The total for a query without `%`, `_` and backslash: the number of rows
whose title contains the query, whatever the limit and the offset. -/
theorem SearchPostsByTitle_total_plain (tm : GoTime) (lower : Char → Char) (db : Storage)
    (query : String) (limit offset : Int) (hl : lower '%' = '%')
    (hq : ∀ c ∈ query.toList.map lower, plainChar c) (hlim : 0 ≤ limit) (hoff : 0 ≤ offset) :
    (db.SearchPostsByTitle tm lower false false query limit offset).2.1 =
      ((db.rows.filter (fun r => containsIgnoreCase lower query r.title)).length : Nat) := by
  have h1 : ¬ limit < 0 := not_lt.2 hlim
  have h2 : ¬ offset < 0 := not_lt.2 hoff
  have hfun : titleMatches lower query = fun r => containsIgnoreCase lower query r.title :=
    funext (titleMatches_plain lower query hl hq)
  simp [Storage.SearchPostsByTitle, h1, h2, hfun]

/-- C6, the code at the failing input: the store holds the one post titled
`"other"`, the query is `"_"`.  `SearchPostsByTitle` reports a total of 1 and
returns that post, while no stored title contains the character `_`. -/
theorem SearchPostsByTitle_underscore_total :
    (resetTable.SavePosts sampleTime Driver.healthy [postB]).2.rows.map (fun r => r.title) =
      ["other"] ∧
    ((resetTable.SavePosts sampleTime Driver.healthy [postB]).2.SearchPostsByTitle sampleTime
      Char.toLower false false "_" 15 0).2.1 = 1 ∧
    ((resetTable.SavePosts sampleTime Driver.healthy [postB]).2.rows.filter
      (fun r => containsIgnoreCase Char.toLower "_" r.title)).length = 0 := by
  decide

theorem titleMatches_empty (lower : Char → Char) (hl : lower '%' = '%') (r : Row) :
    titleMatches lower "" r = true := by
  have hp : ("%" ++ "" ++ "%").toList.map lower = ['%', '%'] := by
    rw [pattern_toList lower "" hl]; rfl
  rw [titleMatches, ilike, hp]
  exact likeMatch_percent_percent _

/-- The page of `SearchPostsByTitle` in terms of the condition `title ILIKE`
of the statement.  For `limit > 0`, `offset ≥ 0` and statements that do not fault, there is
a list `matching` that holds exactly the rows whose title satisfies the search
condition for `q`, descending by `pub_time`, such that `SearchPostsByTitle`
returns no error, the length of `matching` as total, and the posts scanned
from the positions `[offset, offset + limit)` of `matching`.  Every returned
post comes from a stored row that satisfies the condition, at most `limit`
posts are returned, and the condition for the empty query holds for every
row.  For a query without `%`, `_` and backslash the condition is that the
title contains the query, case folded. -/
theorem SearchPostsByTitle_page (tm : GoTime) (lower : Char → Char) (db : Storage)
    (query : String) (limit offset : Int) (hl : lower '%' = '%') (hlim : 0 < limit)
    (hoff : 0 ≤ offset) :
    (∃ matching : List Row,
      matching.Perm (db.rows.filter (titleMatches lower query)) ∧
      matching.Pairwise (fun a b => b.pub_time ≤ a.pub_time) ∧
      db.SearchPostsByTitle tm lower false false query limit offset =
        (((matching.drop offset.toNat).take limit.toNat).map (scanPost tm),
          ((matching.length : Nat) : Int), none)) ∧
    (∀ p ∈ (db.SearchPostsByTitle tm lower false false query limit offset).1,
      ∃ r ∈ db.rows, titleMatches lower query r = true ∧ p = scanPost tm r) ∧
    (((db.SearchPostsByTitle tm lower false false query limit offset).1.length : Nat) : Int)
      ≤ limit ∧
    db.rows.filter (titleMatches lower "") = db.rows ∧
    ((∀ c ∈ query.toList.map lower, plainChar c) →
      ∀ r, titleMatches lower query r = containsIgnoreCase lower query r.title) := by
  have h1 : ¬ limit < 0 := not_lt.2 (le_of_lt hlim)
  have h2 : ¬ offset < 0 := not_lt.2 hoff
  have hres : db.SearchPostsByTitle tm lower false false query limit offset =
      ((((orderByPubTimeDesc (db.rows.filter (titleMatches lower query))).drop
        offset.toNat).take limit.toNat).map (scanPost tm),
        (((db.rows.filter (titleMatches lower query)).length : Nat) : Int), none) := by
    simp [Storage.SearchPostsByTitle, h1, h2]
  refine ⟨⟨orderByPubTimeDesc (db.rows.filter (titleMatches lower query)),
    orderByPubTimeDesc_perm _, orderByPubTimeDesc_sorted _, ?_⟩, ?_, ?_, ?_, ?_⟩
  · rw [hres, (orderByPubTimeDesc_perm _).length_eq]
  · intro p hp
    rw [hres] at hp
    obtain ⟨r, hr, rfl⟩ := List.mem_map.1 hp
    have hr1 := List.mem_of_mem_drop (List.mem_of_mem_take hr)
    have hr2 := (orderByPubTimeDesc_perm _).mem_iff.1 hr1
    obtain ⟨hmem, hmatch⟩ := List.mem_filter.1 hr2
    exact ⟨r, hmem, hmatch, rfl⟩
  · rw [hres]
    simp only [List.length_map, List.length_take]
    omega
  · exact List.filter_eq_self.2 (fun r _ => titleMatches_empty lower hl r)
  · intro hq r
    exact titleMatches_plain lower query hl hq r

theorem SearchPostsByTitle_page_witness :
    ((resetTable.SavePosts sampleTime Driver.healthy [postA1, postB, postB2]).2.SearchPostsByTitle
      sampleTime Char.toLower false false "T" 1 1).1.map (fun p => p.Title) = ["twin"] ∧
    ((((resetTable.SavePosts sampleTime Driver.healthy
      [postA1, postB, postB2]).2.SearchPostsByTitle
      sampleTime Char.toLower false false "T" 1 1).1.length : Nat) : Int) ≤ 1 :=
  ⟨by decide,
    (SearchPostsByTitle_page sampleTime Char.toLower
      (resetTable.SavePosts sampleTime Driver.healthy [postA1, postB, postB2]).2 "T" 1 1
      (by decide) (by decide) (by decide)).2.2.1⟩

/-- C7, the code at the failing input: the store holds the one post titled
`"other"`, the query is `"_"`, the limit 15 and the offset 0.  The list of the
stored posts whose title contains the query is empty, so the page of it at
`[0, 15)` is empty; `SearchPostsByTitle` returns the post `"other"`, whose
title does not contain the character `_`. -/
theorem SearchPostsByTitle_underscore_page :
    ((resetTable.SavePosts sampleTime Driver.healthy [postB]).2.SearchPostsByTitle sampleTime
      Char.toLower false false "_" 15 0).1 =
      [{ ID := 1, Title := "other", Content := "c3",
         PubDate := "Wed, 04 Jan 2006 22:04:05 +0000", Link := "b" }] ∧
    containsIgnoreCase Char.toLower "_" "other" = false ∧
    (((resetTable.SavePosts sampleTime Driver.healthy [postB]).2.rows.filter
      (fun r => containsIgnoreCase Char.toLower "_" r.title)).drop 0).take 15 = [] := by
  decide

end NewsAggregator

/-! ## Theorems: comment service -/

namespace CommentsService

theorem checkCensorship_iff (client : CensorClient) (content : String) :
    API.checkCensorship client content = true ↔
      ∃ resp, client (censorshipRequest content) = some resp ∧ resp.status = 200 := by
  unfold API.checkCensorship
  cases h : client (censorshipRequest content) with
  | none => simp
  | some resp =>
    by_cases hs : resp.status = 200
    · simp [hs]
    · simp [hs]

theorem AddCommentHandler_rejected (client : CensorClient) (saveFault : Bool) (db : DB)
    (comment : Comment) (h : API.checkCensorship client comment.Content = false) :
    API.AddCommentHandler client saveFault db (some comment) =
      ⟨.text 400 "Comment rejected by censorship service", db,
        [censorshipRequest comment.Content], []⟩ := by
  simp [API.AddCommentHandler, h]

/-- A run of `SaveComment` leaves the rows alone or appends the row of the
comment with the next value of the sequence as `id`. -/
theorem SaveComment_rows (fault : Bool) (db : DB) (c : Comment) :
    (SaveComment fault db c).2.rows = db.rows ∨
      (SaveComment fault db c).2.rows =
        db.rows ++ [⟨db.seq + 1, c.NewsID, c.ParentID, c.Content⟩] := by
  unfold SaveComment
  by_cases h1 : (fault || !c.storable) = true
  · rw [if_pos h1]; exact Or.inl rfl
  · rw [if_neg h1]
    dsimp only
    by_cases h2 : 2147483647 < db.seq + 1
    · rw [if_pos h2]; exact Or.inl rfl
    · rw [if_neg h2]
      by_cases h3 : (db.rows.any (fun r => r.id == db.seq + 1)) = true
      · rw [if_pos h3]; exact Or.inl rfl
      · rw [if_neg h3]; exact Or.inr rfl

/-- After approval the handler leaves the database `SaveComment` leaves. -/
theorem AddCommentHandler_db (client : CensorClient) (saveFault : Bool) (db : DB)
    (c : Comment) (hc : API.checkCensorship client c.Content = true) :
    (API.AddCommentHandler client saveFault db (some c)).db = (SaveComment saveFault db c).2 := by
  simp only [API.AddCommentHandler, hc, Bool.not_true, Bool.false_eq_true, if_false]
  rcases h : SaveComment saveFault db c with ⟨⟨id, e⟩, db'⟩
  cases e <;> rfl

/-- Every row that a run of `AddCommentHandler` adds is the submitted comment,
and the moderation service approved its content in that run. -/
theorem AddCommentHandler_rows (client : CensorClient) (saveFault : Bool) (db : DB)
    (body : Option Comment) :
    ∀ r ∈ (API.AddCommentHandler client saveFault db body).db.rows,
      r ∈ db.rows ∨
        ∃ c, body = some c ∧ API.checkCensorship client c.Content = true ∧
          r.news_id = c.NewsID ∧ r.parent_id = c.ParentID ∧ r.content = c.Content := by
  intro r hr
  cases body with
  | none => exact Or.inl hr
  | some c =>
    cases hc : API.checkCensorship client c.Content with
    | false =>
      rw [AddCommentHandler_rejected client saveFault db c hc] at hr
      exact Or.inl hr
    | true =>
      rw [AddCommentHandler_db client saveFault db c hc] at hr
      rcases SaveComment_rows saveFault db c with h | h
      · rw [h] at hr
        exact Or.inl hr
      · rw [h] at hr
        rcases List.mem_append.1 hr with h | h
        · exact Or.inl h
        · rw [List.mem_singleton] at h
          subst h
          exact Or.inr ⟨c, rfl, hc, rfl, rfl, rfl⟩

/-- C9. `checkCensorship` returns true exactly when the call to the moderation
service came back without a transport error and with status 200.  Whenever it
returns false for the content of a submitted comment, `AddCommentHandler`
leaves the database as it was, hands nothing to `SaveComment`, answers 400,
and every later `GetCommentsByNewsID` returns what it returned before.  In
every run of the handler, a row that was not in the table before is the
submitted comment and its content was approved in that run. -/
theorem moderation_fail_closed (client : CensorClient) (saveFault : Bool) (db : DB)
    (comment : Comment) :
    (API.checkCensorship client comment.Content = true ↔
      ∃ resp, client (censorshipRequest comment.Content) = some resp ∧ resp.status = 200) ∧
    (API.checkCensorship client comment.Content = false →
      (API.AddCommentHandler client saveFault db (some comment)).db = db ∧
      (API.AddCommentHandler client saveFault db (some comment)).saveCalls = [] ∧
      (API.AddCommentHandler client saveFault db (some comment)).reply =
        .text 400 "Comment rejected by censorship service" ∧
      ∀ (order : ScanOrder) (fault : Bool) (newsID : Int),
        GetCommentsByNewsID order fault
          (API.AddCommentHandler client saveFault db (some comment)).db newsID =
          GetCommentsByNewsID order fault db newsID) ∧
    (∀ r ∈ (API.AddCommentHandler client saveFault db (some comment)).db.rows,
      r ∈ db.rows ∨ (API.checkCensorship client comment.Content = true ∧
        r.news_id = comment.NewsID ∧ r.parent_id = comment.ParentID ∧
        r.content = comment.Content)) := by
  refine ⟨checkCensorship_iff client comment.Content, ?_, ?_⟩
  · intro h
    rw [AddCommentHandler_rejected client saveFault db comment h]
    exact ⟨rfl, rfl, rfl, fun _ _ _ => rfl⟩
  · intro r hr
    rcases AddCommentHandler_rows client saveFault db (some comment) r hr with h | ⟨c, hc, h⟩
    · exact Or.inl h
    · cases hc
      exact Or.inr h

theorem moderation_fail_closed_witness :
    ((API.AddCommentHandler rejectAll false ⟨[], 0⟩ (some hello)).db = ⟨[], 0⟩ ∧
      (API.AddCommentHandler rejectAll false ⟨[], 0⟩ (some hello)).saveCalls = [] ∧
      (API.AddCommentHandler rejectAll false ⟨[], 0⟩ (some hello)).reply =
        .text 400 "Comment rejected by censorship service" ∧
      ∀ (order : ScanOrder) (fault : Bool) (newsID : Int),
        GetCommentsByNewsID order fault
          (API.AddCommentHandler rejectAll false ⟨[], 0⟩ (some hello)).db newsID =
          GetCommentsByNewsID order fault ⟨[], 0⟩ newsID) ∧
    (API.AddCommentHandler noService false ⟨[], 0⟩ (some hello)).reply.status = 400 ∧
    (API.AddCommentHandler approveAll false ⟨[], 0⟩ (some hello)).db.rows =
      [⟨1, 5, none, "hello"⟩] :=
  ⟨(moderation_fail_closed rejectAll false ⟨[], 0⟩ hello).2.1 (by decide), by decide, by decide⟩

end CommentsService

/-! ## Theorems: gateway -/

namespace APIGateway

theorem forwardRequest_news (esc : String → String) (client : Client) (requestID id : String) :
    forwardRequest client requestID "GET" (newsDetailsURL esc id) none =
      (newsRequest esc requestID id, client (newsRequest esc requestID id)) := rfl

theorem status_WriteHeader (w : ResponseWriter) (code : Nat) (h : w.sent = none) :
    (w.WriteHeader code).status = some code := by
  simp [ResponseWriter.WriteHeader, ResponseWriter.status, h]

theorem status_WriteHeader_sent (w : ResponseWriter) (code : Nat) (h : w.sent ≠ none) :
    w.WriteHeader code = w := by
  unfold ResponseWriter.WriteHeader
  cases hs : w.sent with
  | none => exact absurd hs h
  | some _ => rfl

/-- The method `Write` changes nothing but the body: the status line and the
headers are those of `WriteHeader(200)`. -/
theorem Write_sent (w : ResponseWriter) (bytes : String) :
    (w.Write bytes).sent = (w.WriteHeader 200).sent ∧
      (w.Write bytes).header = (w.WriteHeader 200).header := by
  unfold ResponseWriter.Write
  dsimp only
  cases h : (w.WriteHeader 200).sent with
  | none => exact ⟨h, rfl⟩
  | some s =>
    obtain ⟨code, hdr⟩ := s
    dsimp only
    cases bodyAllowedForStatus code with
    | true => exact ⟨rfl, rfl⟩
    | false => exact ⟨h, rfl⟩

theorem status_Write (w : ResponseWriter) (bytes : String) (code : Nat)
    (h : w.status = some code) : (w.Write bytes).status = some code := by
  have hs : w.sent ≠ none := by
    intro hn
    simp [ResponseWriter.status, hn] at h
  unfold ResponseWriter.status
  rw [(Write_sent w bytes).1, status_WriteHeader_sent w 200 hs]
  exact h

theorem status_setHeader (w : ResponseWriter) (key value : String) :
    (w.setHeader key value).status = w.status := rfl

/-- After `http.Error` on a writer that has sent nothing the status is the
code passed. -/
theorem status_httpError (w : ResponseWriter) (msg : String) (code : Nat) (h : w.sent = none) :
    (httpError w msg code).status = some code := by
  unfold httpError
  apply status_Write
  apply status_WriteHeader
  exact h

/-- Once a status is sent, `processResponse` leaves it. -/
theorem status_processResponse (w : ResponseWriter) (resp : Response) (code : Nat)
    (h : w.status = some code) : (processResponse w resp).status = some code := by
  have hs : w.sent ≠ none := by
    intro hn
    simp [ResponseWriter.status, hn] at h
  unfold processResponse
  cases resp.body with
  | none =>
    simp only [httpError]
    apply status_Write
    have h1 : ((w.setHeader "Content-Type" "text/plain; charset=utf-8").setHeader
        "X-Content-Type-Options" "nosniff").sent ≠ none := hs
    rw [status_WriteHeader_sent _ 500 h1]
    exact h
  | some body =>
    simp only
    apply status_Write
    have h1 : (w.setHeader "Content-Type" "application/json").sent ≠ none := hs
    rw [status_WriteHeader_sent _ resp.status h1]
    exact h

theorem newsDetailsURL_ne_commentsURL (esc : String → String) (id id' : String) :
    newsDetailsURL esc id ≠ commentsURL esc id' := by
  intro h
  have := congrArg String.data h
  simp [newsDetailsURL, commentsURL, String.data_append] at this

theorem getNewsDetails_transport (esc : String → String) (raw : String → Option String)
    (client : Client) (w : ResponseWriter) (requestID id : String) (hid : id ≠ "")
    (hc : client (newsRequest esc requestID id) = none) :
    getNewsDetails esc raw client w requestID id =
      (httpError w "Error contacting news service" 500, [newsRequest esc requestID id]) := by
  unfold getNewsDetails
  rw [if_neg hid, forwardRequest_news, hc]

theorem getNewsDetails_not_ok (esc : String → String) (raw : String → Option String)
    (client : Client) (w : ResponseWriter) (requestID id : String) (hid : id ≠ "")
    (resp : Response) (hc : client (newsRequest esc requestID id) = some resp)
    (hne : resp.status ≠ 200) :
    getNewsDetails esc raw client w requestID id =
      (processResponse (httpError w "Failed to get news details" resp.status) resp,
        [newsRequest esc requestID id]) := by
  unfold getNewsDetails
  rw [if_neg hid, forwardRequest_news, hc]
  exact if_pos hne

/-- C10. In `getNewsDetails` of the gateway, when the call to the news service
fails at transport level or returns a status other than 200, exactly one
outbound request is sent, the one to the news service, none goes to the
comment service, and the status the client receives is 500 for the transport
failure and the status of the news service otherwise. -/
theorem getNewsDetails_stops_after_A (esc : String → String) (raw : String → Option String)
    (client : Client) (w : ResponseWriter) (requestID id : String) (hid : id ≠ "")
    (hw : w.sent = none)
    (hA : ∀ resp, client (newsRequest esc requestID id) = some resp → resp.status ≠ 200) :
    (getNewsDetails esc raw client w requestID id).2 = [newsRequest esc requestID id] ∧
    (∀ req ∈ (getNewsDetails esc raw client w requestID id).2,
      ∀ id', req.url ≠ commentsURL esc id') ∧
    (getNewsDetails esc raw client w requestID id).1.status =
      some (match client (newsRequest esc requestID id) with
        | none => 500
        | some resp => resp.status) := by
  have hcalls : (getNewsDetails esc raw client w requestID id).2 = [newsRequest esc requestID id] ∧
      (getNewsDetails esc raw client w requestID id).1.status =
        some (match client (newsRequest esc requestID id) with
          | none => 500
          | some resp => resp.status) := by
    cases hc : client (newsRequest esc requestID id) with
    | none =>
      rw [getNewsDetails_transport esc raw client w requestID id hid hc]
      exact ⟨rfl, status_httpError w _ 500 hw⟩
    | some resp =>
      rw [getNewsDetails_not_ok esc raw client w requestID id hid resp hc (hA resp hc)]
      exact ⟨rfl, status_processResponse _ resp resp.status (status_httpError w _ _ hw)⟩
  refine ⟨hcalls.1, ?_, hcalls.2⟩
  intro req hreq id'
  rw [hcalls.1, List.mem_singleton] at hreq
  rw [hreq]
  exact newsDetailsURL_ne_commentsURL esc id id'

theorem getNewsDetails_stops_after_A_witness :
    (getNewsDetails (fun s => s) (fun s => some s) newsNotFound (freshWriter "r-1") "r-1" "7").2 =
      [newsRequest (fun s => s) "r-1" "7"] ∧
    (getNewsDetails (fun s => s) (fun s => some s) newsNotFound (freshWriter "r-1") "r-1"
      "7").1.status = some 404 ∧
    (getNewsDetails (fun s => s) (fun s => some s) offline (freshWriter "r-1") "r-1"
      "7").1.status = some 500 :=
  ⟨(getNewsDetails_stops_after_A (fun s => s) (fun s => some s) newsNotFound (freshWriter "r-1")
      "r-1" "7" (by decide) rfl (by decide)).1,
    by decide, by decide⟩

end APIGateway

/-! ## Theorems: gateway, correlation identifier and composition -/

namespace APIGateway

theorem find_filter_ne (h : Header) (k k' : String) (hne : k' ≠ k) :
    (h.filter (fun kv => kv.1 != k)).find? (fun kv => kv.1 == k') =
      h.find? (fun kv => kv.1 == k') := by
  induction h with
  | nil => rfl
  | cons kv rest ih =>
    simp only [List.filter_cons, List.find?_cons]
    by_cases h1 : kv.1 = k
    · have h2 : ¬ kv.1 = k' := fun h2 => hne (h2.symm.trans h1)
      have e1 : (kv.1 != k) = false := by simp [h1]
      have e2 : (kv.1 == k') = false := by simpa using h2
      rw [e1, e2]
      exact ih
    · have e1 : (kv.1 != k) = true := by simpa using h1
      rw [e1]
      simp only [if_true, List.find?_cons]
      cases e2 : (kv.1 == k') with
      | true => rfl
      | false => exact ih

theorem find_filter_self (h : Header) (k : String) :
    (h.filter (fun kv => kv.1 != k)).find? (fun kv => kv.1 == k) = none := by
  rw [List.find?_eq_none]
  intro kv hkv
  have := (List.mem_filter.1 hkv).2
  simpa using this

/-- After `Header.Set` the key has the value set. -/
theorem Header.get_set_self (h : Header) (k v : String) :
    Header.get (Header.set h k v) k = v := by
  unfold Header.get Header.set
  rw [List.find?_append, find_filter_self]
  simp [List.find?_cons]

/-- `Header.Set` leaves the other keys alone. -/
theorem Header.get_set_other (h : Header) (k v k' : String) (hne : k' ≠ k) :
    Header.get (Header.set h k v) k' = Header.get h k' := by
  have e : (k == k') = false := by
    simpa using fun h : k = k' => hne h.symm
  unfold Header.get Header.set
  rw [List.find?_append, find_filter_ne h k k' hne]
  simp only [List.find?_cons, e, List.find?_nil]
  cases List.find? (fun kv => kv.1 == k') h <;> rfl

theorem carries_freshWriter (requestID : String) : (freshWriter requestID).Carries requestID := by
  refine ⟨Header.get_set_self _ _ _, ?_⟩
  intro code hdr h
  cases h

theorem carries_setHeader (w : ResponseWriter) (requestID key value : String)
    (h : w.Carries requestID) (hk : "X-Request-ID" ≠ key) :
    (w.setHeader key value).Carries requestID := by
  refine ⟨?_, h.2⟩
  show Header.get (Header.set w.header key value) "X-Request-ID" = requestID
  rw [Header.get_set_other _ _ _ _ hk]
  exact h.1

theorem carries_WriteHeader (w : ResponseWriter) (requestID : String) (code : Nat)
    (h : w.Carries requestID) : (w.WriteHeader code).Carries requestID := by
  unfold ResponseWriter.WriteHeader
  cases hs : w.sent with
  | some _ => exact h
  | none =>
    refine ⟨h.1, ?_⟩
    intro c hdr heq
    simp only [Option.some.injEq, Prod.mk.injEq] at heq
    rw [← heq.2]
    exact h.1

theorem sent_WriteHeader (w : ResponseWriter) (code : Nat) : (w.WriteHeader code).sent ≠ none := by
  unfold ResponseWriter.WriteHeader
  cases hs : w.sent with
  | some _ => simp [hs]
  | none => simp

theorem carries_Write (w : ResponseWriter) (requestID bytes : String)
    (h : w.Carries requestID) : (w.Write bytes).Carries requestID := by
  have hc := carries_WriteHeader w requestID 200 h
  unfold ResponseWriter.Carries at hc ⊢
  rw [(Write_sent w bytes).1, (Write_sent w bytes).2]
  exact hc

theorem sent_Write (w : ResponseWriter) (bytes : String) : (w.Write bytes).sent ≠ none := by
  rw [(Write_sent w bytes).1]
  exact sent_WriteHeader w 200

theorem carries_httpError (w : ResponseWriter) (requestID msg : String) (code : Nat)
    (h : w.Carries requestID) : (httpError w msg code).Carries requestID := by
  unfold httpError
  apply carries_Write
  apply carries_WriteHeader
  apply carries_setHeader _ _ _ _ _ (by decide)
  exact carries_setHeader _ _ _ _ h (by decide)

theorem sent_httpError (w : ResponseWriter) (msg : String) (code : Nat) :
    (httpError w msg code).sent ≠ none := sent_Write _ _

theorem carries_processResponse (w : ResponseWriter) (requestID : String) (resp : Response)
    (h : w.Carries requestID) : (processResponse w resp).Carries requestID := by
  unfold processResponse
  cases resp.body with
  | none => exact carries_httpError w requestID _ 500 h
  | some body =>
    apply carries_Write
    apply carries_WriteHeader
    exact carries_setHeader _ _ _ _ h (by decide)

theorem sent_processResponse (w : ResponseWriter) (resp : Response) :
    (processResponse w resp).sent ≠ none := by
  unfold processResponse
  cases resp.body with
  | none => exact sent_httpError _ _ _
  | some body => exact sent_Write _ _

theorem forwardRequest_header (client : Client) (requestID method url : String)
    (body : Option String) :
    Header.get (forwardRequest client requestID method url body).1.header "X-Request-ID" =
      requestID :=
  Header.get_set_self _ _ _

/-- A writer that carries the identifier and has sent a status echoes it. -/
theorem echoedID_of_carries (w : ResponseWriter) (requestID : String) (h : w.Carries requestID)
    (hs : w.sent ≠ none) : w.echoedID = some requestID := by
  unfold ResponseWriter.echoedID
  cases hsent : w.sent with
  | none => exact absurd hsent hs
  | some p =>
    obtain ⟨code, hdr⟩ := p
    simp only [Option.map_some', Option.some.injEq]
    exact h.2 code hdr hsent

theorem correlated_error (w : ResponseWriter) (requestID msg : String) (code : Nat)
    (calls : List Request) (h : w.Carries requestID)
    (hc : ∀ req ∈ calls, Header.get req.header "X-Request-ID" = requestID) :
    Correlated requestID (httpError w msg code, calls) :=
  ⟨carries_httpError w requestID msg code h, sent_httpError w msg code, hc⟩

theorem correlated_relay (w : ResponseWriter) (requestID : String) (resp : Response)
    (calls : List Request) (h : w.Carries requestID)
    (hc : ∀ req ∈ calls, Header.get req.header "X-Request-ID" = requestID) :
    Correlated requestID (processResponse w resp, calls) :=
  ⟨carries_processResponse w requestID resp h, sent_processResponse w resp, hc⟩

theorem calls_one (client : Client) (requestID method url : String) (body : Option String) :
    ∀ req ∈ [(forwardRequest client requestID method url body).1],
      Header.get req.header "X-Request-ID" = requestID := by
  intro req hreq
  rw [List.mem_singleton] at hreq
  rw [hreq]
  exact forwardRequest_header client requestID method url body

theorem calls_two (client : Client) (requestID m1 u1 m2 u2 : String) (b1 b2 : Option String) :
    ∀ req ∈ [(forwardRequest client requestID m1 u1 b1).1,
        (forwardRequest client requestID m2 u2 b2).1],
      Header.get req.header "X-Request-ID" = requestID := by
  intro req hreq
  simp only [List.mem_cons, List.mem_singleton, List.not_mem_nil, or_false] at hreq
  rcases hreq with h | h
  · rw [h]; exact forwardRequest_header client requestID m1 u1 b1
  · rw [h]; exact forwardRequest_header client requestID m2 u2 b2

theorem forwardRequest_eq (client : Client) (requestID method url : String)
    (body : Option String) :
    forwardRequest client requestID method url body =
      ((forwardRequest client requestID method url body).1,
        client (forwardRequest client requestID method url body).1) := rfl

theorem getNews_correlated (esc : String → String) (client : Client) (w : ResponseWriter)
    (requestID s page : String) (h : w.Carries requestID) :
    Correlated requestID (getNews esc client w requestID s page) := by
  unfold getNews
  simp only []
  rw [forwardRequest_eq]
  cases client (forwardRequest client requestID "GET"
      (newsURL esc s (if page = "" then "1" else page)) none).1 with
  | none => exact correlated_error w requestID _ 500 _ h (calls_one _ _ _ _ _)
  | some resp => exact correlated_relay w requestID resp _ h (calls_one _ _ _ _ _)

theorem getLastNPosts_correlated (urlOK : String → Bool) (client : Client) (w : ResponseWriter)
    (requestID n : String) (h : w.Carries requestID) :
    Correlated requestID (getLastNPosts urlOK client w requestID n) := by
  unfold getLastNPosts
  by_cases hn : n = ""
  · rw [if_pos hn]
    exact correlated_error w requestID _ 400 [] h (by intro req hr; cases hr)
  · rw [if_neg hn]
    simp only []
    cases hu : urlOK ("http://localhost:8082/news/" ++ n) with
    | false =>
      simp only [Bool.not_false, if_true]
      exact correlated_error w requestID _ 500 [] h (by intro req hr; cases hr)
    | true =>
      simp only [Bool.not_true, Bool.false_eq_true, if_false]
      rw [forwardRequest_eq]
      cases client (forwardRequest client requestID "GET"
          ("http://localhost:8082/news/" ++ n) none).1 with
      | none => exact correlated_error w requestID _ 500 _ h (calls_one _ _ _ _ _)
      | some resp => exact correlated_relay w requestID resp _ h (calls_one _ _ _ _ _)

theorem addComment_correlated (client : Client) (w : ResponseWriter)
    (requestID method body : String) (h : w.Carries requestID) :
    Correlated requestID (addComment client w requestID method body) := by
  unfold addComment
  by_cases hm : method = "POST"
  · rw [if_neg (not_not.2 hm), forwardRequest_eq]
    cases client (forwardRequest client requestID "POST" "http://localhost:8081/comments"
        (some body)).1 with
    | none => exact correlated_error w requestID _ 500 _ h (calls_one _ _ _ _ _)
    | some resp => exact correlated_relay w requestID resp _ h (calls_one _ _ _ _ _)
  · rw [if_pos hm]
    exact correlated_error w requestID _ 405 [] h (by intro req hr; cases hr)

theorem getComments_correlated (esc : String → String) (client : Client) (w : ResponseWriter)
    (requestID newsID : String) (h : w.Carries requestID) :
    Correlated requestID (getComments esc client w requestID newsID) := by
  unfold getComments
  by_cases hn : newsID = ""
  · rw [if_pos hn]
    exact correlated_error w requestID _ 400 [] h (by intro req hr; cases hr)
  · rw [if_neg hn, forwardRequest_eq]
    cases client (forwardRequest client requestID "GET" (commentsURL esc newsID) none).1 with
    | none => exact correlated_error w requestID _ 500 _ h (calls_one _ _ _ _ _)
    | some resp =>
      cases hb : resp.body with
      | none =>
        simp only [hb]
        exact correlated_error w requestID _ 500 _ h (calls_one _ _ _ _ _)
      | some body =>
        simp only [hb]
        exact ⟨carries_Write _ _ _ (carries_WriteHeader _ _ _
          (carries_setHeader _ _ _ _ h (by decide))), sent_Write _ _, calls_one _ _ _ _ _⟩

theorem forwardRequest_comments (esc : String → String) (client : Client)
    (requestID id : String) :
    forwardRequest client requestID "GET" (commentsURL esc id) none =
      (commentsRequest esc requestID id, client (commentsRequest esc requestID id)) := rfl

/-- What `getNewsDetails` does once the news service has answered 200. -/
theorem getNewsDetails_after_A (esc : String → String) (raw : String → Option String)
    (client : Client) (w : ResponseWriter) (requestID id : String) (hid : id ≠ "")
    (a : Response) (hc : client (newsRequest esc requestID id) = some a)
    (ha : a.status = 200) :
    getNewsDetails esc raw client w requestID id =
      match client (commentsRequest esc requestID id) with
      | none =>
        (httpError w "Error contacting comments service" 500,
          [newsRequest esc requestID id, commentsRequest esc requestID id])
      | some b =>
        if b.status ≠ 200 then
          (processResponse (httpError w "Failed to get comments" b.status) b,
            [newsRequest esc requestID id, commentsRequest esc requestID id])
        else
          match a.body with
          | none =>
            (httpError w "Error reading news response" 500,
              [newsRequest esc requestID id, commentsRequest esc requestID id])
          | some newsBody =>
            match b.body with
            | none =>
              (httpError w "Error reading comments response" 500,
                [newsRequest esc requestID id, commentsRequest esc requestID id])
            | some commentsBody =>
              match raw newsBody, raw commentsBody with
              | some n, some c =>
                (((w.setHeader "Content-Type" "application/json").WriteHeader 200).Write
                    ("\x7b\"news\":" ++ n ++ ",\"comments\":" ++ c ++ "\x7d\n"),
                  [newsRequest esc requestID id, commentsRequest esc requestID id])
              | _, _ =>
                (httpError ((w.setHeader "Content-Type" "application/json").WriteHeader 200)
                    "Error encoding response" 500,
                  [newsRequest esc requestID id, commentsRequest esc requestID id]) := by
  unfold getNewsDetails
  rw [if_neg hid, forwardRequest_news, hc]
  simp only [ha, ne_eq, not_true_eq_false, if_false]
  rw [forwardRequest_comments]
  cases client (commentsRequest esc requestID id) with
  | none => rfl
  | some b => rfl

theorem newsRequest_header (esc : String → String) (requestID id : String) :
    Header.get (newsRequest esc requestID id).header "X-Request-ID" = requestID :=
  Header.get_set_self _ _ _

theorem commentsRequest_header (esc : String → String) (requestID id : String) :
    Header.get (commentsRequest esc requestID id).header "X-Request-ID" = requestID :=
  Header.get_set_self _ _ _

theorem calls_A (esc : String → String) (requestID id : String) :
    ∀ req ∈ [newsRequest esc requestID id],
      Header.get req.header "X-Request-ID" = requestID := by
  intro req hreq
  rw [List.mem_singleton] at hreq
  rw [hreq]
  exact newsRequest_header esc requestID id

theorem calls_AB (esc : String → String) (requestID id : String) :
    ∀ req ∈ [newsRequest esc requestID id, commentsRequest esc requestID id],
      Header.get req.header "X-Request-ID" = requestID := by
  intro req hreq
  simp only [List.mem_cons, List.mem_singleton, List.not_mem_nil, or_false] at hreq
  rcases hreq with h | h
  · rw [h]; exact newsRequest_header esc requestID id
  · rw [h]; exact commentsRequest_header esc requestID id

theorem getNewsDetails_correlated (esc : String → String) (raw : String → Option String)
    (client : Client) (w : ResponseWriter) (requestID id : String) (h : w.Carries requestID) :
    Correlated requestID (getNewsDetails esc raw client w requestID id) := by
  by_cases hid : id = ""
  · unfold getNewsDetails
    rw [if_pos hid]
    exact correlated_error w requestID _ 400 [] h (by intro req hr; cases hr)
  · cases hc : client (newsRequest esc requestID id) with
    | none =>
      rw [getNewsDetails_transport esc raw client w requestID id hid hc]
      exact correlated_error w requestID _ 500 _ h (calls_A esc requestID id)
    | some a =>
      by_cases ha : a.status = 200
      · rw [getNewsDetails_after_A esc raw client w requestID id hid a hc ha]
        have hAB := calls_AB esc requestID id
        cases client (commentsRequest esc requestID id) with
        | none => exact correlated_error w requestID _ 500 _ h hAB
        | some b =>
          by_cases hb : b.status = 200
          · simp only [hb, ne_eq, not_true_eq_false, if_false]
            cases a.body with
            | none => exact correlated_error w requestID _ 500 _ h hAB
            | some newsBody =>
              cases b.body with
              | none => exact correlated_error w requestID _ 500 _ h hAB
              | some commentsBody =>
                have hw1 : ((w.setHeader "Content-Type" "application/json").WriteHeader
                    200).Carries requestID :=
                  carries_WriteHeader _ _ _ (carries_setHeader _ _ _ _ h (by decide))
                dsimp only
                cases raw newsBody with
                | none => exact correlated_error _ requestID _ 500 _ hw1 hAB
                | some n =>
                  cases raw commentsBody with
                  | none => exact correlated_error _ requestID _ 500 _ hw1 hAB
                  | some c => exact ⟨carries_Write _ _ _ hw1, sent_Write _ _, hAB⟩
          · simp only [hb, ne_eq, not_false_eq_true, if_true]
            exact correlated_relay _ requestID b _ (carries_httpError w requestID _ _ h) hAB
      · rw [getNewsDetails_not_ok esc raw client w requestID id hid a hc ha]
        exact correlated_relay _ requestID a _ (carries_httpError w requestID _ _ h)
          (calls_A esc requestID id)

theorem handle_correlated (env : Env) (w : ResponseWriter) (requestID : String) (route : Route)
    (h : w.Carries requestID) : Correlated requestID (handle env w requestID route) := by
  cases route with
  | news s page => exact getNews_correlated env.esc env.client w requestID s page h
  | last n => exact getLastNPosts_correlated env.urlOK env.client w requestID n h
  | details id => exact getNewsDetails_correlated env.esc env.raw env.client w requestID id h
  | comments newsID => exact getComments_correlated env.esc env.client w requestID newsID h
  | addComment method body => exact addComment_correlated env.client w requestID method body h
  | other => exact correlated_error w requestID _ 404 [] h (by intro req hr; cases hr)

/-- C12. For every inbound request of the gateway `requestIDMiddleware`
establishes one identifier: the inbound `X-Request-ID` when it is not empty,
otherwise the freshly generated one, which is not empty.  Every outbound
request the handlers send through `forwardRequest` carries it as
`X-Request-ID` (in `getNewsDetails` the request to the news service and the
request to the comment service), and it is the `X-Request-ID` of the response
the client receives. -/
theorem correlation_id_propagated (env : Env) (uuid : String) (inbound : Header)
    (route : Route) (huuid : uuid ≠ "") :
    establishedID uuid inbound ≠ "" ∧
    (Header.get inbound "X-Request-ID" ≠ "" →
      establishedID uuid inbound = Header.get inbound "X-Request-ID") ∧
    (Header.get inbound "X-Request-ID" = "" → establishedID uuid inbound = uuid) ∧
    (∀ req ∈ (serve env uuid inbound route).2,
      Header.get req.header "X-Request-ID" = establishedID uuid inbound) ∧
    (serve env uuid inbound route).1.echoedID = some (establishedID uuid inbound) := by
  have hcor : Correlated (establishedID uuid inbound) (serve env uuid inbound route) :=
    handle_correlated env _ _ route (carries_freshWriter _)
  refine ⟨?_, ?_, ?_, hcor.2.2, echoedID_of_carries _ _ hcor.1 hcor.2.1⟩
  · unfold establishedID
    by_cases h : Header.get inbound "X-Request-ID" = ""
    · rw [if_pos h]; exact huuid
    · rw [if_neg h]; exact h
  · intro h
    unfold establishedID
    rw [if_neg h]
  · intro h
    unfold establishedID
    rw [if_pos h]

theorem correlation_id_propagated_witness :
    (∀ req ∈ (serve (sampleEnv (bothOK (some "[]"))) "u-1" [("X-Request-ID", "r-1")]
        (.details "7")).2,
      Header.get req.header "X-Request-ID" = "r-1") ∧
    (serve (sampleEnv (bothOK (some "[]"))) "u-1" [("X-Request-ID", "r-1")]
      (.details "7")).1.echoedID = some "r-1" ∧
    (serve (sampleEnv (bothOK (some "[]"))) "u-1" [("X-Request-ID", "r-1")]
      (.details "7")).2.length = 2 ∧
    (serve (sampleEnv offline) "u-1" [] (.last "3")).1.echoedID = some "u-1" :=
  ⟨(correlation_id_propagated (sampleEnv (bothOK (some "[]"))) "u-1" [("X-Request-ID", "r-1")]
      (.details "7") (by decide)).2.2.2.1,
    by decide, by decide, by decide⟩

/-- C13, refuted as stated: the inbound request carries `X-Request-ID: r-1`, the
news service answers 200 with `X-Request-ID: n-9`.  The request to the comment
service that follows still carries `r-1`, and the client receives `r-1`. -/
theorem downstream_id_not_echoed :
    bothOK (some "[]") (newsRequest (fun s => s) "r-1" "7") =
      some ⟨200, [("X-Request-ID", "n-9")], some "[]"⟩ ∧
    (serve (sampleEnv (bothOK (some "[]"))) "u-1" [("X-Request-ID", "r-1")]
      (.details "7")).2.map (fun req => (req.url, Header.get req.header "X-Request-ID")) =
      [("http://localhost:8082/news/details?id=7", "r-1"),
       ("http://localhost:8081/comments?news_id=7", "r-1")] ∧
    (serve (sampleEnv (bothOK (some "[]"))) "u-1" [("X-Request-ID", "r-1")]
      (.details "7")).1.echoedID = some "r-1" := by
  decide

/-- C13, as amended.  When the news service answers with a non-empty
`X-Request-ID`, `getNewsDetails` takes that value into its local variable
`requestID`, which it uses in log lines, and nowhere else: the response the
client receives still has the identifier the middleware established as
`X-Request-ID`, and every outbound request of the handler, the later one to
the comment service included, carries the established identifier. -/
theorem downstream_id_only_logged (esc : String → String) (raw : String → Option String)
    (client : Client) (requestID id : String) (a : Response)
    (hA : client (newsRequest esc requestID id) = some a)
    (hne : Header.get a.header "X-Request-ID" ≠ "") :
    adoptedRequestID requestID a = Header.get a.header "X-Request-ID" ∧
    (getNewsDetails esc raw client (freshWriter requestID) requestID id).1.echoedID =
      some requestID ∧
    (∀ req ∈ (getNewsDetails esc raw client (freshWriter requestID) requestID id).2,
      Header.get req.header "X-Request-ID" = requestID) ∧
    (id ≠ "" → a.status = 200 →
      (getNewsDetails esc raw client (freshWriter requestID) requestID id).2 =
        [newsRequest esc requestID id, commentsRequest esc requestID id]) := by
  have hcor := getNewsDetails_correlated esc raw client (freshWriter requestID) requestID id
    (carries_freshWriter requestID)
  refine ⟨?_, echoedID_of_carries _ _ hcor.1 hcor.2.1, hcor.2.2, ?_⟩
  · unfold adoptedRequestID
    rw [if_pos hne]
  · intro hid ha
    rw [getNewsDetails_after_A esc raw client _ requestID id hid a hA ha]
    cases client (commentsRequest esc requestID id) with
    | none => rfl
    | some b =>
      by_cases hb : b.status = 200
      · simp only [hb, ne_eq, not_true_eq_false, if_false]
        cases a.body with
        | none => rfl
        | some newsBody =>
          cases b.body with
          | none => rfl
          | some commentsBody =>
            dsimp only
            cases raw newsBody with
            | none => rfl
            | some n =>
              cases raw commentsBody with
              | none => rfl
              | some c => rfl
      · simp only [hb, ne_eq, not_false_eq_true, if_true]

theorem downstream_id_only_logged_witness :
    adoptedRequestID "r-1" ⟨200, [("X-Request-ID", "n-9")], some "[]"⟩ = "n-9" ∧
    (getNewsDetails (fun s => s) sampleRaw (bothOK (some "[]")) (freshWriter "r-1") "r-1"
      "7").1.echoedID = some "r-1" :=
  ⟨(downstream_id_only_logged (fun s => s) sampleRaw (bothOK (some "[]")) "r-1" "7"
      ⟨200, [("X-Request-ID", "n-9")], some "[]"⟩ (by decide) (by decide)).1,
    (downstream_id_only_logged (fun s => s) sampleRaw (bothOK (some "[]")) "r-1" "7"
      ⟨200, [("X-Request-ID", "n-9")], some "[]"⟩ (by decide) (by decide)).2.1⟩

theorem body_WriteHeader (w : ResponseWriter) (code : Nat) : (w.WriteHeader code).body = w.body := by
  unfold ResponseWriter.WriteHeader
  cases w.sent <;> rfl

/-- The method `Write` on a writer whose status went out: the bytes are
appended when the status allows a body and dropped otherwise. -/
theorem body_Write (w : ResponseWriter) (bytes : String) (code : Nat)
    (h : w.status = some code) :
    (w.Write bytes).body = if bodyAllowedForStatus code then w.body ++ bytes else w.body := by
  have hs : w.sent ≠ none := by
    intro hn
    simp [ResponseWriter.status, hn] at h
  unfold ResponseWriter.Write
  dsimp only
  rw [status_WriteHeader_sent w 200 hs]
  unfold ResponseWriter.status at h
  cases hsent : w.sent with
  | none => exact absurd hsent hs
  | some s =>
    obtain ⟨c, hdr⟩ := s
    rw [hsent] at h
    simp only [Option.map_some', Option.some.injEq] at h
    subst h
    dsimp only
    cases bodyAllowedForStatus c with
    | true => rfl
    | false => rfl

theorem status_WriteHeader_of_status (w : ResponseWriter) (code code' : Nat)
    (h : w.status = some code) : (w.WriteHeader code').status = some code := by
  have hs : w.sent ≠ none := by
    intro hn
    simp [ResponseWriter.status, hn] at h
  rw [status_WriteHeader_sent w code' hs]
  exact h

/-- A `WriteHeader` that goes out, then a `Write`: the bytes are appended when
the code allows a body. -/
theorem body_WriteHeader_Write (w : ResponseWriter) (code : Nat) (bytes : String)
    (h : w.sent = none) :
    ((w.WriteHeader code).Write bytes).body =
      if bodyAllowedForStatus code then w.body ++ bytes else w.body := by
  rw [body_Write _ _ code (status_WriteHeader w code h), body_WriteHeader]

/-- A `WriteHeader` after the status went out, then a `Write`: the bytes are
appended when the status that went out allows a body. -/
theorem body_WriteHeader_Write_sent (w : ResponseWriter) (code' code : Nat) (bytes : String)
    (h : w.status = some code) :
    ((w.WriteHeader code').Write bytes).body =
      if bodyAllowedForStatus code then w.body ++ bytes else w.body := by
  rw [body_Write _ _ code (status_WriteHeader_of_status w code code' h), body_WriteHeader]

theorem body_httpError (w : ResponseWriter) (msg : String) (code : Nat) (h : w.sent = none) :
    (httpError w msg code).body =
      if bodyAllowedForStatus code then w.body ++ (msg ++ "\n") else w.body := by
  unfold httpError
  exact body_WriteHeader_Write _ code _ h

/-- The function `http.Error` on a writer whose status went out already: the
code is ignored, and the message is appended when that status allows a
body. -/
theorem body_httpError_sent (w : ResponseWriter) (msg : String) (code' code : Nat)
    (h : w.status = some code) :
    (httpError w msg code').body =
      if bodyAllowedForStatus code then w.body ++ (msg ++ "\n") else w.body := by
  unfold httpError
  exact body_WriteHeader_Write_sent _ code' code _ h

/-- What the client receives is the accepted body unless the inbound request
is a `HEAD` request. -/
theorem clientBody_eq (method : String) (w : ResponseWriter) (text : String)
    (h : w.body = text) : w.clientBody method = if method = "HEAD" then "" else text := by
  unfold ResponseWriter.clientBody
  rw [h]

theorem processResponse_readable (w : ResponseWriter) (resp : Response) (body : String)
    (hbody : resp.body = some body) :
    processResponse w resp =
      ((w.setHeader "Content-Type" "application/json").WriteHeader resp.status).Write body := by
  unfold processResponse
  rw [hbody]

theorem processResponse_unreadable (w : ResponseWriter) (resp : Response)
    (hbody : resp.body = none) :
    processResponse w resp = httpError w "Error reading response from service" 500 := by
  unfold processResponse
  rw [hbody]

/-- On a writer that has sent nothing, a readable downstream response is
relayed: its status, and its body when the status allows one. -/
theorem relay_readable (w : ResponseWriter) (resp : Response) (body : String)
    (hw : w.sent = none) (hb : w.body = "") (hbody : resp.body = some body) :
    (processResponse w resp).status = some resp.status ∧
      (processResponse w resp).body = if bodyAllowedForStatus resp.status then body else "" := by
  rw [processResponse_readable w resp body hbody]
  refine ⟨status_Write _ _ _ (status_WriteHeader _ _ hw), ?_⟩
  rw [body_WriteHeader_Write (w.setHeader "Content-Type" "application/json") resp.status body hw]
  show (if bodyAllowedForStatus resp.status then w.body ++ body else w.body) = _
  rw [hb, String.empty_append]

theorem relay_unreadable (w : ResponseWriter) (resp : Response) (hw : w.sent = none)
    (hbody : resp.body = none) : (processResponse w resp).status = some 500 := by
  rw [processResponse_unreadable w resp hbody]
  exact status_httpError w _ 500 hw

/-- The shared end of `getNews`, `getLastNPosts` and `addComment`: the error
reply on a transport failure, `processResponse` otherwise. -/
theorem relay_tail (client : Client) (w : ResponseWriter) (requestID method url msg : String)
    (body : Option String) (hw : w.sent = none) (hb : w.body = "")
    (out : ResponseWriter × List Request)
    (hout : out =
      match forwardRequest client requestID method url body with
      | (req, none) => (httpError w msg 500, [req])
      | (req, some resp) => (processResponse w resp, [req])) :
    out.2 = [(forwardRequest client requestID method url body).1] ∧
    (client (forwardRequest client requestID method url body).1 = none →
      out.1.status = some 500) ∧
    (∀ resp text, client (forwardRequest client requestID method url body).1 = some resp →
      resp.body = some text → out.1.status = some resp.status ∧
        out.1.body = if bodyAllowedForStatus resp.status then text else "") ∧
    (∀ resp, client (forwardRequest client requestID method url body).1 = some resp →
      resp.body = none → out.1.status = some 500) := by
  rw [forwardRequest_eq] at hout
  cases hc : client (forwardRequest client requestID method url body).1 with
  | none =>
    rw [hc] at hout
    subst hout
    refine ⟨rfl, fun _ => status_httpError w _ 500 hw, ?_, ?_⟩
    · intro resp text h; cases h
    · intro resp h; cases h
  | some r =>
    rw [hc] at hout
    subst hout
    refine ⟨rfl, ?_, ?_, ?_⟩
    · intro h; cases h
    · intro resp text h hbody
      cases h
      exact relay_readable w r text hw hb hbody
    · intro resp h hbody
      cases h
      exact relay_unreadable w r hw hbody

theorem getComments_transport (esc : String → String) (client : Client) (w : ResponseWriter)
    (requestID newsID : String) (hn : newsID ≠ "")
    (hc : client (forwardRequest client requestID "GET" (commentsURL esc newsID) none).1 = none) :
    getComments esc client w requestID newsID =
      (httpError w "Error contacting comments service" 500,
        [(forwardRequest client requestID "GET" (commentsURL esc newsID) none).1]) := by
  unfold getComments
  rw [if_neg hn, forwardRequest_eq, hc]

theorem getComments_unreadable (esc : String → String) (client : Client) (w : ResponseWriter)
    (requestID newsID : String) (hn : newsID ≠ "") (resp : Response)
    (hc : client (forwardRequest client requestID "GET" (commentsURL esc newsID) none).1 =
      some resp)
    (hbody : resp.body = none) :
    getComments esc client w requestID newsID =
      (httpError w "Error reading response from comments service" 500,
        [(forwardRequest client requestID "GET" (commentsURL esc newsID) none).1]) := by
  unfold getComments
  rw [if_neg hn, forwardRequest_eq, hc]
  dsimp only
  rw [hbody]

theorem getComments_readable (esc : String → String) (client : Client) (w : ResponseWriter)
    (requestID newsID : String) (hn : newsID ≠ "") (resp : Response) (text : String)
    (hc : client (forwardRequest client requestID "GET" (commentsURL esc newsID) none).1 =
      some resp)
    (hbody : resp.body = some text) :
    getComments esc client w requestID newsID =
      (processResponse w resp,
        [(forwardRequest client requestID "GET" (commentsURL esc newsID) none).1]) := by
  unfold getComments
  rw [if_neg hn, forwardRequest_eq, hc]
  dsimp only
  rw [hbody, processResponse_readable w resp text hbody]

/-- C16, refuted as stated.  `GET /news/last?n=%25zz` passes the check of
`getLastNPosts` (`n` is `%zz`, not empty), the address built from it is refused
before any request is sent: no downstream call is issued and the client
receives 500.  `GET /news?s=go` against a news service that answers 200
but whose body cannot be read reaches the client as 500.  And
`HEAD /news/comments?news_id=7` against a comment service that answers 200
with the body `[]` reaches the client as 200 without a body. -/
theorem pass_through_exceptions :
    (serve (sampleEnv (bothOK (some "[]"))) "u-1" [] (.last "%zz")).2 = [] ∧
    (serve (sampleEnv (bothOK (some "[]"))) "u-1" [] (.last "%zz")).1.status = some 500 ∧
    (serve (sampleEnv (bothOK none)) "u-1" [] (.news "go" "")).2.map (fun req => req.url) =
      ["http://localhost:8082/news?page=1&s=go"] ∧
    ((serve (sampleEnv (bothOK none)) "u-1" [] (.news "go" "")).2.map
      (fun req => (bothOK none req).map (fun resp => resp.status))) = [some 200] ∧
    (serve (sampleEnv (bothOK none)) "u-1" [] (.news "go" "")).1.status = some 500 ∧
    ((serve (sampleEnv (bothOK (some "[]"))) "u-1" [] (.comments "7")).2.map
      (fun req => (bothOK (some "[]") req).map (fun resp => (resp.status, resp.body)))) =
      [some (200, some "[]")] ∧
    (serve (sampleEnv (bothOK (some "[]"))) "u-1" [] (.comments "7")).1.status = some 200 ∧
    (serve (sampleEnv (bothOK (some "[]"))) "u-1" [] (.comments "7")).1.clientBody "HEAD" =
      "" := by
  decide

/-- The outcome of a pass-through handler on the writer itself: one request,
500 on a transport failure or an unreadable body, the status of a readable
response and its body when the status allows one. -/
theorem pass_through_writer (env : Env) (w : ResponseWriter) (requestID : String)
    (route : Route) (req : Request) (hw : w.sent = none) (hb : w.body = "")
    (hreq : passThroughRequest env requestID route = some req) :
    (handle env w requestID route).2 = [req] ∧
    (env.client req = none → (handle env w requestID route).1.status = some 500) ∧
    (∀ resp text, env.client req = some resp → resp.body = some text →
      (handle env w requestID route).1.status = some resp.status ∧
      (handle env w requestID route).1.body =
        if bodyAllowedForStatus resp.status then text else "") ∧
    (∀ resp, env.client req = some resp → resp.body = none →
      (handle env w requestID route).1.status = some 500) := by
  cases route with
  | news s page =>
    simp only [passThroughRequest, Option.some.injEq] at hreq
    subst hreq
    exact relay_tail env.client w requestID "GET" _ "Error contacting news service" none hw hb
      _ rfl
  | last n =>
    by_cases hn : n = ""
    · simp [passThroughRequest, hn] at hreq
    · cases hu : env.urlOK ("http://localhost:8082/news/" ++ n) with
      | false => simp [passThroughRequest, hn, hu] at hreq
      | true =>
        simp only [passThroughRequest, hn, hu, if_false, if_true, Option.some.injEq] at hreq
        subst hreq
        apply relay_tail env.client w requestID "GET" _ "Error contacting news service" none
          hw hb
        simp only [handle, getLastNPosts, hn, hu, if_false, Bool.not_true, Bool.false_eq_true]
  | comments newsID =>
    by_cases hn : newsID = ""
    · simp [passThroughRequest, hn] at hreq
    · simp only [passThroughRequest, hn, if_false, Option.some.injEq] at hreq
      subst hreq
      have hh : handle env w requestID (.comments newsID) =
          getComments env.esc env.client w requestID newsID := rfl
      rw [hh]
      cases hc : env.client (forwardRequest env.client requestID "GET"
          (commentsURL env.esc newsID) none).1 with
      | none =>
        rw [getComments_transport env.esc env.client w requestID newsID hn hc]
        refine ⟨rfl, fun _ => status_httpError w _ 500 hw, ?_, ?_⟩
        · intro resp text h; cases h
        · intro resp h; cases h
      | some r =>
        cases hbody : r.body with
        | none =>
          rw [getComments_unreadable env.esc env.client w requestID newsID hn r hc hbody]
          refine ⟨rfl, ?_, ?_, ?_⟩
          · intro h; cases h
          · intro resp text h hb'
            cases h
            rw [hbody] at hb'
            cases hb'
          · intro resp h _
            exact status_httpError w _ 500 hw
        | some text =>
          rw [getComments_readable env.esc env.client w requestID newsID hn r text hc hbody]
          refine ⟨rfl, ?_, ?_, ?_⟩
          · intro h; cases h
          · intro resp text' h hb'
            cases h
            exact relay_readable w r text' hw hb hb'
          · intro resp h hb'
            cases h
            rw [hbody] at hb'
            cases hb'
  | addComment method body =>
    by_cases hm : method = "POST"
    · simp only [passThroughRequest, hm, if_true, Option.some.injEq] at hreq
      subst hreq
      apply relay_tail env.client w requestID "POST" _ "Error contacting comments service"
        (some body) hw hb
      simp only [handle, addComment, hm, ne_eq, not_true_eq_false, if_false]
    · simp [passThroughRequest, hm] at hreq
  | details id => simp [passThroughRequest] at hreq
  | other => simp [passThroughRequest] at hreq

/-- C16, as amended.  For `getNews`, `getLastNPosts`, `getComments` and
`addComment`, and every inbound request that passes the handler's own check
and whose downstream address is accepted, exactly one downstream request is
sent.  When the call fails at transport level the client receives 500; when
the body of the response cannot be read the client receives 500; when the
call returns a response whose body is read, the client receives the status of
that response, and the body it receives is the body of that response unless
the inbound request is a `HEAD` request or the status is 1xx, 204 or 304: then
the client receives no body.  `method` is the method of the inbound
request. -/
theorem pass_through_relay (env : Env) (w : ResponseWriter) (requestID : String)
    (route : Route) (req : Request) (hw : w.sent = none) (hb : w.body = "")
    (hreq : passThroughRequest env requestID route = some req) :
    (handle env w requestID route).2 = [req] ∧
    (env.client req = none → (handle env w requestID route).1.status = some 500) ∧
    (∀ resp text, env.client req = some resp → resp.body = some text →
      (handle env w requestID route).1.status = some resp.status ∧
      (∀ method : String, (handle env w requestID route).1.clientBody method =
        if method = "HEAD" then "" else if bodyAllowedForStatus resp.status then text else "") ∧
      (∀ method : String, method ≠ "HEAD" → bodyAllowedForStatus resp.status = true →
        (handle env w requestID route).1.clientBody method = text)) ∧
    (∀ resp, env.client req = some resp → resp.body = none →
      (handle env w requestID route).1.status = some 500) := by
  obtain ⟨h1, h2, h3, h4⟩ := pass_through_writer env w requestID route req hw hb hreq
  refine ⟨h1, h2, ?_, h4⟩
  intro resp text hc hbody
  obtain ⟨hs, hbd⟩ := h3 resp text hc hbody
  refine ⟨hs, fun method => clientBody_eq method _ _ hbd, ?_⟩
  intro method hm hal
  rw [clientBody_eq method _ _ hbd, if_neg hm, if_pos hal]

/-- C16 on three requests for the comments of the news item 7: a `GET` whose
downstream answers 200 with `[]` reaches the client with that status and
body; a `HEAD` reaches it with the status and no body; a downstream 204
reaches a `GET` client as 204 without body. -/
theorem pass_through_relay_witness :
    (handle (sampleEnv (bothOK (some "[]"))) (freshWriter "r-1") "r-1" (.comments "7")).2.map
      (fun req => req.url) = ["http://localhost:8081/comments?news_id=7"] ∧
    (handle (sampleEnv (bothOK (some "[]"))) (freshWriter "r-1") "r-1" (.comments "7")).1.status =
      some 200 ∧
    (handle (sampleEnv (bothOK (some "[]"))) (freshWriter "r-1") "r-1"
      (.comments "7")).1.clientBody "GET" = "[]" ∧
    (handle (sampleEnv (bothOK (some "[]"))) (freshWriter "r-1") "r-1"
      (.comments "7")).1.clientBody "HEAD" = "" ∧
    (handle (sampleEnv (commentsFail 204 "")) (freshWriter "r-1") "r-1"
      (.comments "7")).1.status = some 204 ∧
    (handle (sampleEnv (commentsFail 204 "")) (freshWriter "r-1") "r-1"
      (.comments "7")).1.clientBody "GET" = "" :=
  ⟨by decide,
    ((pass_through_relay (sampleEnv (bothOK (some "[]"))) (freshWriter "r-1") "r-1"
      (.comments "7") (commentsRequest (fun s => s) "r-1" "7") rfl rfl (by decide)).2.2.1
      ⟨200, [("X-Request-ID", "r-1")], some "[]"⟩ "[]" (by decide) rfl).1,
    ((pass_through_relay (sampleEnv (bothOK (some "[]"))) (freshWriter "r-1") "r-1"
      (.comments "7") (commentsRequest (fun s => s) "r-1" "7") rfl rfl (by decide)).2.2.1
      ⟨200, [("X-Request-ID", "r-1")], some "[]"⟩ "[]" (by decide) rfl).2.2 "GET" (by decide)
      (by decide),
    by decide, by decide, by decide⟩

/-- The function `processResponse` on a writer whose status went out already:
the status stays, and the downstream body, or the text about the unreadable
body, is appended when that status allows a body. -/
theorem body_processResponse (w : ResponseWriter) (resp : Response) (code : Nat)
    (h : w.status = some code) :
    (processResponse w resp).body =
      if bodyAllowedForStatus code then
        w.body ++ (match resp.body with
          | some text => text
          | none => "Error reading response from service\n")
      else w.body := by
  cases hbody : resp.body with
  | none =>
    rw [processResponse_unreadable w resp hbody, body_httpError_sent w _ 500 code h]
    rfl
  | some text =>
    rw [processResponse_readable w resp text hbody]
    exact body_WriteHeader_Write_sent _ resp.status code text h

/-- C11, refuted as stated: both services answer 200, the body of the news
service is not a JSON document.  The client receives status 200 and the text
`Error encoding response`, no envelope.  When the body of the news service
cannot be read the client receives 500.  And in reply to a `HEAD` request,
with both services at 200 and both bodies JSON documents, the client receives
200 and no envelope. -/
theorem details_envelope_exceptions :
    ((serve (sampleEnv (bothOK (some "oops"))) "u-1" [] (.details "7")).2.map
      (fun req => (bothOK (some "oops") req).map (fun resp => resp.status))) =
      [some 200, some 200] ∧
    (serve (sampleEnv (bothOK (some "oops"))) "u-1" [] (.details "7")).1.status = some 200 ∧
    (serve (sampleEnv (bothOK (some "oops"))) "u-1" [] (.details "7")).1.clientBody "GET" =
      "Error encoding response\n" ∧
    ((serve (sampleEnv (bothOK none)) "u-1" [] (.details "7")).2.map
      (fun req => (bothOK none req).map (fun resp => resp.status))) = [some 200, some 200] ∧
    (serve (sampleEnv (bothOK none)) "u-1" [] (.details "7")).1.status = some 500 ∧
    (serve (sampleEnv (bothOK (some "[]"))) "u-1" [] (.details "7")).1.status = some 200 ∧
    (serve (sampleEnv (bothOK (some "[]"))) "u-1" [] (.details "7")).1.clientBody "HEAD" =
      "" := by
  decide

/-- C11, as amended.  In `getNewsDetails`, after the news service has answered
200: when the call to the comment service fails at transport level the client
receives 500 and the text `Error contacting comments service`; when the
comment service answers with a status other than 200 the client receives that
status, never 200, and a body made of the text `Failed to get comments` and
the comment service's body, nothing of the news service, or no body at all
when that status is 1xx, 204 or 304; when both answer 200, both bodies are
read and both are JSON documents, the client receives 200 and one envelope
with the news document under `news` and the comments document under
`comments`.  In reply to a `HEAD` request the client receives the same status
and no body.  `method` is the method of the inbound request. -/
theorem details_composition (esc : String → String) (raw : String → Option String)
    (client : Client) (w : ResponseWriter) (requestID id : String) (a : Response)
    (hid : id ≠ "") (hw : w.sent = none) (hb : w.body = "")
    (hA : client (newsRequest esc requestID id) = some a) (ha : a.status = 200) :
    (client (commentsRequest esc requestID id) = none →
      (getNewsDetails esc raw client w requestID id).1.status = some 500 ∧
      ∀ method : String, (getNewsDetails esc raw client w requestID id).1.clientBody method =
        if method = "HEAD" then "" else "Error contacting comments service\n") ∧
    (∀ b, client (commentsRequest esc requestID id) = some b → b.status ≠ 200 →
      (getNewsDetails esc raw client w requestID id).1.status = some b.status ∧
      (getNewsDetails esc raw client w requestID id).1.status ≠ some 200 ∧
      ∀ method : String, (getNewsDetails esc raw client w requestID id).1.clientBody method =
        if method = "HEAD" then ""
        else if bodyAllowedForStatus b.status then
          "Failed to get comments\n" ++ (match b.body with
            | some text => text
            | none => "Error reading response from service\n")
        else "") ∧
    (∀ b newsBody commentsBody n c, client (commentsRequest esc requestID id) = some b →
      b.status = 200 → a.body = some newsBody → b.body = some commentsBody →
      raw newsBody = some n → raw commentsBody = some c →
      (getNewsDetails esc raw client w requestID id).1.status = some 200 ∧
      ∀ method : String, (getNewsDetails esc raw client w requestID id).1.clientBody method =
        if method = "HEAD" then ""
        else "\x7b\"news\":" ++ n ++ ",\"comments\":" ++ c ++ "\x7d\n") := by
  rw [getNewsDetails_after_A esc raw client w requestID id hid a hA ha]
  refine ⟨?_, ?_, ?_⟩
  · intro hB
    rw [hB]
    refine ⟨status_httpError w _ 500 hw, fun method => clientBody_eq method _ _ ?_⟩
    rw [body_httpError _ _ _ hw, hb, String.empty_append]
    rfl
  · intro b hB hne
    rw [hB]
    simp only [hne, ne_eq, not_false_eq_true, if_true]
    have hst : (processResponse (httpError w "Failed to get comments" b.status) b).status =
        some b.status :=
      status_processResponse _ b b.status (status_httpError w _ _ hw)
    refine ⟨hst, ?_, fun method => clientBody_eq method _ _ ?_⟩
    · rw [hst]
      intro h
      exact hne (Option.some.inj h)
    · rw [body_processResponse _ b b.status (status_httpError w _ _ hw),
        body_httpError _ _ _ hw, hb, String.empty_append]
      cases bodyAllowedForStatus b.status with
      | true => rfl
      | false => rfl
  · intro b newsBody commentsBody n c hB hb200 hna hnb hn hc
    rw [hB]
    simp only [hb200, ne_eq, not_true_eq_false, if_false, hna, hnb, hn, hc]
    refine ⟨status_Write _ _ _ (status_WriteHeader _ _ hw), fun method =>
      clientBody_eq method _ _ ?_⟩
    rw [body_WriteHeader_Write (w.setHeader "Content-Type" "application/json") 200 _ hw]
    show (if bodyAllowedForStatus 200 then w.body ++ _ else w.body) = _
    rw [hb, String.empty_append]
    rfl

/-- C11 on four runs for the news item 7, the news service at 200: a comment
service at 503 reaches the client as 503; a comment service at 204 reaches it
as 204 without body; with both at 200 a `GET` client receives the envelope and
a `HEAD` client receives none. -/
theorem details_composition_witness :
    (getNewsDetails (fun s => s) sampleRaw (commentsFail 503 "down") (freshWriter "r-1") "r-1"
      "7").1.status = some 503 ∧
    (getNewsDetails (fun s => s) sampleRaw (commentsFail 503 "down") (freshWriter "r-1") "r-1"
      "7").1.clientBody "GET" = "Failed to get comments\ndown" ∧
    (getNewsDetails (fun s => s) sampleRaw (commentsFail 204 "") (freshWriter "r-1") "r-1"
      "7").1.clientBody "GET" = "" ∧
    (getNewsDetails (fun s => s) sampleRaw (bothOK (some "\x7b\"id\":7\x7d\n")) (freshWriter "r-1")
      "r-1" "7").1.clientBody "GET" = "\x7b\"news\":\x7b\"id\":7\x7d,\"comments\":[]\x7d\n" ∧
    (getNewsDetails (fun s => s) sampleRaw (bothOK (some "\x7b\"id\":7\x7d\n")) (freshWriter "r-1")
      "r-1" "7").1.clientBody "HEAD" = "" :=
  ⟨((details_composition (fun s => s) sampleRaw (commentsFail 503 "down") (freshWriter "r-1")
      "r-1" "7" ⟨200, [], some "\x7b\"id\":7\x7d\n"⟩ (by decide) rfl rfl (by decide) rfl).2.1
      ⟨503, [], some "down"⟩ (by decide) (by decide)).1,
    by decide, by decide,
    ((details_composition (fun s => s) sampleRaw (bothOK (some "\x7b\"id\":7\x7d\n"))
      (freshWriter "r-1") "r-1" "7" ⟨200, [("X-Request-ID", "n-9")], some "\x7b\"id\":7\x7d\n"⟩
      (by decide) rfl rfl (by decide) rfl).2.2
      ⟨200, [("X-Request-ID", "r-1")], some "[]"⟩ "\x7b\"id\":7\x7d\n" "[]" "\x7b\"id\":7\x7d"
      "[]" (by decide) rfl rfl rfl (by decide) (by decide)).2 "GET",
    by decide⟩

end APIGateway

/-! ## Theorems: news service, time layouts, pagination and middleware chain -/

namespace NewsAggregator

end NewsAggregator

namespace NewsAggregator

/-- A value in the range of `int` is not changed by the wrap-around. -/
theorem wrapInt64_of_range (x : Int) (h1 : -9223372036854775808 ≤ x)
    (h2 : x ≤ 9223372036854775807) : wrapInt64 x = x := by
  unfold wrapInt64
  omega

theorem totalPagesOf_eq (total : Int) (h0 : 0 ≤ total) (hmax : total ≤ 9223372036854775793) :
    totalPagesOf total = (total + 14) / 15 := by
  have a1 : wrapInt64 (wrapInt64 (total + 15) - 1) = total + 14 := by
    unfold wrapInt64
    omega
  have a2 : (0 : Int) ≤ total + 14 := by omega
  unfold totalPagesOf itemsPerPage
  rw [a1, Int.tdiv_eq_ediv a2 (by decide)]

theorem pageOf_pos (pageStr : String) : 1 ≤ pageOf pageStr := by
  unfold pageOf
  by_cases h : pageStr = ""
  · simp [h]
  · simp only [ne_eq, h, not_false_eq_true, if_true]
    cases Atoi pageStr with
    | none => exact le_refl _
    | some p =>
      show 1 ≤ (if p > 0 then p else 1)
      by_cases hp : p > 0
      · rw [if_pos hp]
        exact hp
      · rw [if_neg hp]

/-- Up to page 614891469123651721 the offset is `(page - 1) * 15` and is not
negative. -/
theorem offsetOf_small (page : Int) (h1 : 1 ≤ page) (h2 : page ≤ 614891469123651721) :
    offsetOf page = (page - 1) * 15 ∧ 0 ≤ offsetOf page := by
  have a1 : -9223372036854775808 ≤ page - 1 := by omega
  have a2 : page - 1 ≤ 9223372036854775807 := by omega
  have a3 : -9223372036854775808 ≤ (page - 1) * 15 := by omega
  have a4 : (page - 1) * 15 ≤ 9223372036854775807 := by omega
  have e : offsetOf page = (page - 1) * 15 := by
    unfold offsetOf itemsPerPage
    rw [wrapInt64_of_range (page - 1) a1 a2, wrapInt64_of_range ((page - 1) * 15) a3 a4]
  rw [e]
  exact ⟨rfl, by omega⟩

theorem search_page_empty_iff (tm : GoTime) (lower : Char → Char) (db : Storage)
    (query : String) (offset : Int) (hoff : 0 ≤ offset) :
    (db.SearchPostsByTitle tm lower false false query itemsPerPage offset).1 = [] ↔
      (db.SearchPostsByTitle tm lower false false query itemsPerPage offset).2.1 ≤ offset := by
  have h2 : ¬ offset < 0 := not_lt.2 hoff
  have hres : db.SearchPostsByTitle tm lower false false query itemsPerPage offset =
      ((((orderByPubTimeDesc (db.rows.filter (titleMatches lower query))).drop
        offset.toNat).take (15 : Int).toNat).map (scanPost tm),
        (((db.rows.filter (titleMatches lower query)).length : Nat) : Int), none) := by
    simp [Storage.SearchPostsByTitle, h2, itemsPerPage]
  rw [hres]
  simp only
  rw [← List.length_eq_zero, List.length_map, List.length_take, List.length_drop,
    (orderByPubTimeDesc_perm _).length_eq]
  have h15 : (15 : Int).toNat = 15 := rfl
  rw [h15]
  omega

/-- The page count of `getNews` where the offset does not wrap.  For a total
`0 ≤ total` that the search returns (a row count, so that `total + 14` fits
`int`), the `total_pages` of `getNews` is `⌈total / 15⌉`; for a page `p` with
`1 ≤ p ≤ 614891469123651721` the offset `getNews` passes is `(p - 1) * 15`,
it is below the total exactly when `p ≤ total_pages`, and the search returns
no post exactly when the offset is at least the total. -/
theorem totalPages_valid_bound (total : Int) (h0 : 0 ≤ total)
    (hmax : total ≤ 9223372036854775793) :
    totalPagesOf total = ⌈(total : ℚ) / 15⌉ ∧
    (∀ p : Int, 1 ≤ p → p ≤ 614891469123651721 →
      offsetOf p = (p - 1) * 15 ∧ (offsetOf p < total ↔ p ≤ totalPagesOf total)) ∧
    (∀ (tm : GoTime) (lower : Char → Char) (db : Storage) (query pageStr : String)
      (posts : List Post),
      db.SearchPostsByTitle tm lower false false query itemsPerPage (offsetOf (pageOf pageStr)) =
        (posts, total, none) →
      API.getNews tm lower false false db query pageStr =
        .page 200 posts ⟨pageOf pageStr, totalPagesOf total, 15⟩) ∧
    (∀ (tm : GoTime) (lower : Char → Char) (db : Storage) (query : String) (offset : Int),
      0 ≤ offset →
      (db.SearchPostsByTitle tm lower false false query itemsPerPage offset).2.1 = total →
      ((db.SearchPostsByTitle tm lower false false query itemsPerPage offset).1 = [] ↔
        total ≤ offset)) := by
  have e := totalPagesOf_eq total h0 hmax
  refine ⟨?_, ?_, ?_, ?_⟩
  · symm
    rw [Int.ceil_eq_iff, e]
    constructor
    · rw [lt_div_iff₀ (by norm_num : (0 : ℚ) < 15)]
      have : ((total + 14) / 15 - 1) * 15 < total := by omega
      exact_mod_cast this
    · rw [div_le_iff₀ (by norm_num : (0 : ℚ) < 15)]
      have : total ≤ (total + 14) / 15 * 15 := by omega
      exact_mod_cast this
  · intro p h1 h2
    have ho := (offsetOf_small p h1 h2).1
    refine ⟨ho, ?_⟩
    rw [ho, e]
    constructor
    · intro h; omega
    · intro h; omega
  · intro tm lower db query pageStr posts h
    unfold API.getNews
    dsimp only
    rw [h]
    rfl
  · intro tm lower db query offset hoff htotal
    rw [← htotal]
    exact search_page_empty_iff tm lower db query offset hoff

theorem totalPages_valid_bound_witness :
    totalPagesOf 31 = ⌈((31 : Int) : ℚ) / 15⌉ ∧ totalPagesOf 31 = 3 ∧ totalPagesOf 30 = 2 ∧
    totalPagesOf 0 = 0 ∧ (offsetOf 3 < 31 ↔ 3 ≤ totalPagesOf 31) :=
  ⟨(totalPages_valid_bound 31 (by decide) (by decide)).1, by decide, by decide, by decide,
    ((totalPages_valid_bound 31 (by decide) (by decide)).2.1 3 (by decide) (by decide)).2⟩

/-- C18, the code at the failing input: the table holds nine posts, the query
is empty and `page=8608480567731124089`.  The search reports the total 9, so
`total_pages` is 1 and the page lies beyond it; the product `(page - 1) * 15`
wraps around to the offset 8, which is below the total, and `getNews` answers
200 with the ninth post instead of an empty page. -/
theorem getNews_page_beyond_total :
    pageOf "8608480567731124089" = 8608480567731124089 ∧
    totalPagesOf 9 = 1 ∧
    offsetOf (pageOf "8608480567731124089") = 8 ∧
    API.getNews sampleTime Char.toLower false false ninePosts "" "8608480567731124089" =
      .page 200 [{ ID := 1, Title := "n1", Content := "c", PubDate := "", Link := "l1" }]
        ⟨8608480567731124089, 1, 15⟩ := by
  decide

/-- C20, the code at the failing input: `page=614891469123651722` parses to a
positive `int`, the product `(page - 1) * 15` wraps around to a negative
offset, the server refuses the negative `OFFSET` and `getNews` answers 500. -/
theorem getNews_offset_wraps :
    Atoi "614891469123651722" = some 614891469123651722 ∧
    pageOf "614891469123651722" = 614891469123651722 ∧
    offsetOf (pageOf "614891469123651722") = -9223372036854775801 ∧
    API.getNews sampleTime Char.toLower false false resetTable "" "614891469123651722" =
      .text 500 "Error retrieving posts" := by
  decide

/-- C14, the code at the failing input: the request carries the header
`X-Request-ID: abc` and no `request_id` parameter.  The outer middleware
overwrites the header with the identifier it generates, and the response
carries that one. -/
theorem responseRequestID_overwritten :
    requestIDMiddleware "6ba7b810-9dad-11d1-80b4-00c04fd430c8" "" [("X-Request-ID", "abc")] =
      [("X-Request-ID", "6ba7b810-9dad-11d1-80b4-00c04fd430c8")] ∧
    responseRequestID "6ba7b810-9dad-11d1-80b4-00c04fd430c8"
      "7c9e6679-7425-40de-944b-e07fc1f90ae7" "" [("X-Request-ID", "abc")] =
      "6ba7b810-9dad-11d1-80b4-00c04fd430c8" := by
  decide

/-- Under the chain of `main` the response identifier is the `request_id`
parameter when it is not empty and the identifier the outer middleware
generates otherwise; the inbound header plays no part. -/
theorem responseRequestID_eq (uuid1 uuid2 queryRequestID : String)
    (reqHeader : APIGateway.Header) (h1 : uuid1 ≠ "") :
    responseRequestID uuid1 uuid2 queryRequestID reqHeader =
      if queryRequestID = "" then uuid1 else queryRequestID := by
  unfold responseRequestID RequestIDMiddleware requestIDMiddleware
  simp only [APIGateway.Header.get_set_self]
  by_cases hq : queryRequestID = ""
  · simp [hq, h1]
  · simp [hq]

end NewsAggregator

/-! ## Theorems: comment service, stored comments and the moderation request -/

namespace CommentsService

/-- The request of `checkCensorship` has the one header `Content-Type`. -/
theorem censorshipRequest_header (content : String) :
    (censorshipRequest content).header = [("Content-Type", "application/json")] := rfl

/-- C15, the code at the failing input: a `POST /comments` with the header
`X-Request-ID: abc` and an approved comment.  `RequestIDMiddleware` establishes
`abc`; the one request `checkCensorship` sends has no `X-Request-ID`. -/
theorem censorship_request_without_id :
    (servePost "u-1" approveAll false ⟨[], 0⟩ [("X-Request-ID", "abc")] (some hello)).1 = "abc" ∧
    (servePost "u-1" approveAll false ⟨[], 0⟩ [("X-Request-ID", "abc")]
      (some hello)).2.censorCalls = [censorshipRequest "hello"] ∧
    (servePost "u-1" approveAll false ⟨[], 0⟩ [("X-Request-ID", "abc")]
      (some hello)).2.censorCalls.map
        (fun req => (req.header, APIGateway.Header.get req.header "X-Request-ID")) =
      [([("Content-Type", "application/json")], "")] := by
  decide

theorem SaveComment_ok (db : DB) (comment : Comment) (hwf : db.WF)
    (hs : comment.storable = true) (hseq : db.seq < 2147483647) :
    SaveComment false db comment =
      ((db.seq + 1, false),
        ⟨db.rows ++ [⟨db.seq + 1, comment.NewsID, comment.ParentID, comment.Content⟩],
          db.seq + 1⟩) := by
  have hid : ¬ (db.rows.any (fun r => r.id == db.seq + 1)) = true := by
    simp only [List.any_eq_true, beq_iff_eq, not_exists, not_and]
    intro r hr h
    have := hwf r hr
    omega
  have h2 : ¬ 2147483647 < db.seq + 1 := by omega
  simp only [SaveComment, hs, Bool.not_true, Bool.or_self, Bool.false_eq_true, if_false, hid, h2]

/-- A comment the server cannot store is refused and the database stays as it
was, sequence included. -/
theorem SaveComment_refused (fault : Bool) (db : DB) (comment : Comment)
    (hs : comment.storable = false) : SaveComment fault db comment = ((0, true), db) := by
  simp [SaveComment, hs]

theorem GetCommentsByNewsID_eq (order : ScanOrder) (db : DB) (k : Int)
    (hk : NewsAggregator.fitsInt4 k = true) :
    GetCommentsByNewsID order false db k =
      (((order.arrange db.rows).filter (fun r => r.news_id == k)).map scanComment, false) := by
  simp [GetCommentsByNewsID, hk]

theorem GetCommentsByNewsID_perm (order : ScanOrder) (db : DB) (k : Int)
    (hk : NewsAggregator.fitsInt4 k = true) :
    (GetCommentsByNewsID order false db k).1.Perm
      ((db.rows.filter (fun r => r.news_id == k)).map scanComment) := by
  rw [GetCommentsByNewsID_eq order db k hk]
  exact ((order.perm db.rows).filter _).map _

theorem storable_newsID (c : Comment) (hs : c.storable = true) :
    NewsAggregator.fitsInt4 c.NewsID = true := by
  unfold Comment.storable at hs
  simp only [Bool.and_eq_true] at hs
  exact hs.1.1

/-- C17. For a comment the columns can hold (`news_id` and `parent_id` within
32 bits, no zero character in the content), on a table whose ids come from
its sequence, with the sequence not exhausted and a statement that does not
fault: `SaveComment` returns an id that no stored comment has and appends the
row; `GetCommentsByNewsID` of the comment's news id then returns no error and
contains the comment with that id and with the same news id, parent id
(absent stays absent) and content.  For a news id `k` within 32 bits,
`GetCommentsByNewsID(k)` returns exactly the stored comments with
`news_id = k`, each once, in the order of the server's scan, which the
statement does not fix; under a scan in heap order that is insertion order.
After the save it returns the earlier comments and the new one when its news
id is `k`.  After approval `AddCommentHandler` answers 200 with the comment
and its new id. -/
theorem SaveComment_then_get (order : ScanOrder) (db : DB) (comment : Comment) (hwf : db.WF)
    (hs : comment.storable = true) (hseq : db.seq < 2147483647) :
    (SaveComment false db comment).1 = (db.seq + 1, false) ∧
    (∀ r ∈ db.rows, r.id ≠ (SaveComment false db comment).1.1) ∧
    (GetCommentsByNewsID order false (SaveComment false db comment).2 comment.NewsID).2 = false ∧
    ({ comment with ID := db.seq + 1 } ∈
      (GetCommentsByNewsID order false (SaveComment false db comment).2 comment.NewsID).1) ∧
    (∀ k, NewsAggregator.fitsInt4 k = true →
      (GetCommentsByNewsID order false db k).2 = false ∧
      (GetCommentsByNewsID order false db k).1.Perm
        ((db.rows.filter (fun r => r.news_id == k)).map scanComment)) ∧
    (∀ k, NewsAggregator.fitsInt4 k = true →
      GetCommentsByNewsID ScanOrder.heap false db k =
        ((db.rows.filter (fun r => r.news_id == k)).map scanComment, false)) ∧
    (∀ k, NewsAggregator.fitsInt4 k = true →
      (GetCommentsByNewsID order false (SaveComment false db comment).2 k).1.Perm
        ((GetCommentsByNewsID order false db k).1 ++
          (if comment.NewsID = k then [{ comment with ID := db.seq + 1 }] else []))) ∧
    (SaveComment false db comment).2.WF ∧
    (∀ client : CensorClient, API.checkCensorship client comment.Content = true →
      (API.AddCommentHandler client false db (some comment)).reply =
        .comment 200 { comment with ID := db.seq + 1 } ∧
      (API.AddCommentHandler client false db (some comment)).db =
        (SaveComment false db comment).2) := by
  have hsave := SaveComment_ok db comment hwf hs hseq
  have hnews := storable_newsID comment hs
  have hafter : ∀ k, NewsAggregator.fitsInt4 k = true →
      (GetCommentsByNewsID order false (SaveComment false db comment).2 k).1.Perm
        ((db.rows.filter (fun r => r.news_id == k)).map scanComment ++
          (if comment.NewsID = k then [{ comment with ID := db.seq + 1 }] else [])) := by
    intro k hk
    refine (GetCommentsByNewsID_perm order _ k hk).trans ?_
    rw [hsave]
    simp only [List.filter_append, List.map_append]
    by_cases hkk : comment.NewsID = k
    · have e : (comment.NewsID == k) = true := by simpa using hkk
      simp only [List.filter_cons, e, if_true, List.filter_nil, List.map_cons, List.map_nil,
        if_pos hkk]
      exact List.Perm.refl _
    · have e : (comment.NewsID == k) = false := by simpa using hkk
      simp only [List.filter_cons, e, List.filter_nil, List.map_nil, if_neg hkk]
      exact List.Perm.refl _
  refine ⟨by rw [hsave], ?_, ?_, ?_, ?_, ?_, ?_, ?_, ?_⟩
  · intro r hr
    rw [hsave]
    have := hwf r hr
    show r.id ≠ db.seq + 1
    omega
  · rw [GetCommentsByNewsID_eq order _ _ hnews]
  · have h := hafter comment.NewsID hnews
    rw [if_pos rfl] at h
    exact h.symm.subset (List.mem_append_right _ (List.mem_singleton.2 rfl))
  · intro k hk
    exact ⟨by rw [GetCommentsByNewsID_eq order db k hk], GetCommentsByNewsID_perm order db k hk⟩
  · intro k hk
    exact GetCommentsByNewsID_eq ScanOrder.heap db k hk
  · intro k hk
    exact (hafter k hk).trans
      ((GetCommentsByNewsID_perm order db k hk).symm.append_right _)
  · rw [hsave]
    intro r hr
    rcases List.mem_append.1 hr with h | h
    · have := hwf r h
      show r.id ≤ db.seq + 1
      omega
    · rw [List.mem_singleton] at h
      subst h
      exact le_refl _
  · intro client happ
    simp only [API.AddCommentHandler, happ, hsave, Bool.not_true, Bool.false_eq_true, if_false,
      and_self]

/-- C17 on a table that holds one comment of the news item 5 and one of the
news item 6, under a scan that starts at the second row: the reply to the
first comment gets the id 3, and the comments of the news item 5 are then the
two of them, the parent id of the reply kept. -/
theorem SaveComment_then_get_witness :
    (SaveComment false ⟨[⟨1, 5, none, "hello"⟩, ⟨2, 6, none, "other"⟩], 2⟩ helloReply).1 =
      (3, false) ∧
    (GetCommentsByNewsID ScanOrder.fromSecond false
      (SaveComment false ⟨[⟨1, 5, none, "hello"⟩, ⟨2, 6, none, "other"⟩], 2⟩ helloReply).2 5).1 =
      [⟨3, 5, some 1, "welcome"⟩, ⟨1, 5, none, "hello"⟩] ∧
    (⟨3, 5, some 1, "welcome"⟩ : Comment) ∈
      (GetCommentsByNewsID ScanOrder.fromSecond false
        (SaveComment false ⟨[⟨1, 5, none, "hello"⟩, ⟨2, 6, none, "other"⟩], 2⟩ helloReply).2
        helloReply.NewsID).1 :=
  ⟨(SaveComment_then_get ScanOrder.fromSecond
      ⟨[⟨1, 5, none, "hello"⟩, ⟨2, 6, none, "other"⟩], 2⟩ helloReply
      (by unfold DB.WF; decide) (by decide) (by decide)).1,
    by decide,
    (SaveComment_then_get ScanOrder.fromSecond
      ⟨[⟨1, 5, none, "hello"⟩, ⟨2, 6, none, "other"⟩], 2⟩ helloReply
      (by unfold DB.WF; decide) (by decide) (by decide)).2.2.2.1⟩

/-- C17, the claim at two inputs.  The comment on the news item 3000000000 is
approved, the statement does not fault, and `SaveComment` returns an error:
the handler answers 500 and the table stays empty.  On a table that holds two
comments of the news item 5, inserted in the order of their ids, a scan that
starts at the second row returns the later comment first. -/
theorem SaveComment_claim_exceptions :
    API.checkCensorship approveAll helloFar.Content = true ∧
    SaveComment false ⟨[], 0⟩ helloFar = ((0, true), ⟨[], 0⟩) ∧
    (API.AddCommentHandler approveAll false ⟨[], 0⟩ (some helloFar)).reply =
      .text 500 "Failed to save comment" ∧
    (SaveComment false (SaveComment false ⟨[], 0⟩ hello).2 helloReply).2.rows =
      [⟨1, 5, none, "hello"⟩, ⟨2, 5, some 1, "welcome"⟩] ∧
    (GetCommentsByNewsID ScanOrder.fromSecond false
      (SaveComment false (SaveComment false ⟨[], 0⟩ hello).2 helloReply).2 5).1 =
      [⟨2, 5, some 1, "welcome"⟩, ⟨1, 5, none, "hello"⟩] := by
  decide

end CommentsService

/-! ## Theorems: the single save and the transactional save -/

namespace NewsAggregator

end NewsAggregator
